import Mathlib

/-!
# cpustat: the terminal dashboard (termui.go)

A shallow embedding of `tuiInit`, `tuiListUpdate` and `tuiGraphUpdate`.

Modelling conventions:

* `float64` values are modelled by exact rationals (`ℚ`); the one place where
  binary rounding decides the result (the `%.1f` verb at an exact decimal tie)
  is taken as a parameter `tieUp`.
* Go `int` is `Int`; the product `(i-1023)*interval` is wrapped to 64 bits.
* A Go map is a function from keys to `Option` values.  `sysChartData` only
  ever holds the keys `"usr"` and `"sys"` (lines 86-87 and 175-176), so it is a
  record of the two buffers, and the order in which `range` visits them is an
  input of the tick (`usrFirst`).  `procDelta` is the list of the map's entries
  in the order `range` visits them.
* A run-time panic inside a function is caught by its deferred `recover`, which
  calls `tuiFatal`; the embedding returns the global state reached at that point
  together with the flag `fatal`.
* The fields of `systemStats`/`procStats` are declared outside this file of the
  repository; they are taken as natural-number tick counts.
-/

namespace Cpustat

/-! ## Go primitives -/

/-- Go slice expression `xs[lo:]`: out of range (none) unless `0 ≤ lo ≤ len xs`. -/
def sliceFrom {α : Type} (xs : List α) (lo : Int) : Option (List α) :=
  if 0 ≤ lo ∧ lo ≤ (xs.length : Int) then some (xs.drop lo.toNat) else none

/-- Go `fmt.Sprint` of an `int`: its decimal representation. -/
def Sprint (pid : Int) : String := toString pid

/-- Go `strings.HasSuffix`:
`len(s) >= len(suffix) && s[len(s)-len(suffix):] == suffix`. -/
def HasSuffix (s suffix : String) : Bool :=
  decide (suffix.data.length ≤ s.data.length) &&
    decide (s.data.drop (s.data.length - suffix.data.length) = suffix.data)

/-- Go `val[:len(val)-k]` on an ASCII string. -/
def dropLast (s : String) (k : Nat) : String :=
  String.mk (s.data.take (s.data.length - k))

/-- Go `int` arithmetic result on a 64-bit platform (two's complement wrap). -/
def wrapInt (z : Int) : Int := (z + 2 ^ 63) % 2 ^ 64 - 2 ^ 63

/-- Value of one hexadecimal digit (`strconv.ParseUint(_, 16, 8)` on valid input). -/
def hexDigit (c : Char) : Nat :=
  if c.isDigit then c.toNat - 48
  else if 97 ≤ c.toNat ∧ c.toNat ≤ 102 then c.toNat - 87
  else if 65 ≤ c.toNat ∧ c.toNat ≤ 70 then c.toNat - 55
  else 0

/-- Go `strconv.ParseUint(s, 16, 8)` on a string of hexadecimal digits. -/
def ParseUint16 (s : List Char) : Nat :=
  s.foldl (fun acc c => 16 * acc + hexDigit c) 0

/-- The number of tenths nearest to `n / 1000`.  At an exact decimal tie
(`n % 100 = 50`) the direction taken by `%.1f` depends on the binary64 value of
the quotient and is given by `tieUp n`.  Away from a tie the exact quotient is
at least `1/1000` from the rounding boundary, more than the binary64 error of
the quotient as long as `n < 2 ^ 52`. -/
def roundTenths (tieUp : Nat → Bool) (n : Nat) : Nat :=
  n / 100 + (if 50 < n % 100 ∨ (n % 100 = 50 ∧ tieUp n = true) then 1 else 0)

/-- Go `fmt.Sprintf("%.1f", x)` for `x = n / 1000` with `n` a natural number:
the decimal with one fractional digit nearest to `x`. -/
def Sprintf1f (tieUp : Nat → Bool) (n : Nat) : String :=
  let tenths := roundTenths tieUp n
  toString (tenths / 10) ++ "." ++ toString (tenths % 10)

/-! ## Data model -/

/-- The widget attribute type `ui.Attribute`. -/
abbrev Attribute := Nat

/-- Fields `usr`, `sys` of the system delta. -/
structure systemStats where
  usr : Nat
  sys : Nat

/-- Fields `utime`, `stime` of one per-process delta. -/
structure procStats where
  utime : Nat
  stime : Nat

/-- Global `sysChartData`: the buffers under the keys `"usr"` and `"sys"`. -/
structure SysChartData where
  usr : List ℚ
  sys : List ℚ

/-- The fields of a `ui.LineChart` written by this file. -/
structure LineChart where
  Data : String → Option (List ℚ)
  DataLabels : List String
  LineColor : String → Option Attribute

/-- The package-level variables of termui.go. -/
structure Globals where
  sysChartData : SysChartData
  procChartData : Int → Option (List ℚ)
  colorList : List Attribute
  graphColors : String → Option Attribute
  dataLabels : List String
  sysChart : LineChart
  procChart : LineChart
  mainListItems : List String

/-- State after a call, and whether the deferred `recover` ran `tuiFatal`. -/
structure Outcome where
  state : Globals
  fatal : Bool

/-- What the collector hands to `tuiGraphUpdate`, with the two environment
values the call reads: the chart's inner width and the map iteration order. -/
structure TickInput where
  sysDelta : systemStats
  procDelta : List (Int × procStats)
  topPids : List Int
  jiffy : Int
  interval : Int
  innerWidth : Int
  usrFirst : Bool

/-- The colour table, lines 31-47. -/
def colorValues : List String :=
  ["#9e0142", "#d53e4f", "#fdae61", "#fee08b", "#66c2a5", "#3288bd", "#5e4fa2", "#6e5fb2",
   "#7f3b08", "#ffffff", "#8073ac", "#542788", "#a6cee3", "#33a02c", "#b2df8a"]

/-! ## tuiInit -/

/-- Lines 68-71: one palette entry, from `colorStr[1:3]`, `[3:5]`, `[5:7]`. -/
def colorOf (ColorRGB24 : Nat → Nat → Nat → Attribute) (colorStr : String) : Attribute :=
  let cs := colorStr.data
  ColorRGB24 (ParseUint16 ((cs.drop 1).take 2)) (ParseUint16 ((cs.drop 3).take 2))
    (ParseUint16 ((cs.drop 5).take 2))

/-- Lines 78-83: the label stored at index `i`. -/
def labelAt (tieUp : Nat → Bool) (interval : Int) (i : Nat) : String :=
  let val := Sprintf1f tieUp (wrapInt (((i : Int) - 1023) * interval)).natAbs
  if HasSuffix val ".0" then dropLast val 2 else val

/-- Lines 76-84: `make([]string, 1024)` filled index by index. -/
def buildLabels (tieUp : Nat → Bool) (interval : Int) : List String :=
  (List.range 1024).foldl (fun tbl i => tbl.set i (labelAt tieUp interval i))
    (List.replicate 1024 "")

/-- An empty chart, as `ui.NewLineChart` returns it. -/
def newLineChart : LineChart :=
  { Data := fun _ => none, DataLabels := [], LineColor := fun _ => none }

/-- The globals as `tuiInit` leaves them when it enters `ui.Loop` (lines 66-111);
`procChartData` is the empty map of line 21. -/
def tuiInit (ColorRGB24 : Nat → Nat → Nat → Attribute) (tieUp : Nat → Bool)
    (interval : Int) : Globals :=
  { sysChartData := { usr := [], sys := [] }
    procChartData := fun _ => none
    colorList := colorValues.foldl (fun acc colorStr => acc ++ [colorOf ColorRGB24 colorStr]) []
    graphColors := fun _ => none
    dataLabels := buildLabels tieUp interval
    sysChart := newLineChart
    procChart := newLineChart
    mainListItems := ["[gathering list of top processes](fg-red,bg-white)"] }

/-! ## tuiListUpdate -/

/-- Line 155: the list row of rank `i`. -/
def listItem (i : Nat) (strPid friendly : String) (colorPos : Nat) : String :=
  "[" ++ toString i ++ " " ++ strPid ++ " " ++ friendly ++ "](fg-color" ++ toString colorPos ++ ")"

/-- Lines 152-157: the loop over `list`, from rank `i` with the running `colorPos`.
Indexing `colorList[colorPos]` out of range panics. -/
def listRange (friendly : Int → String) : List Int → Nat → Nat → Globals → Outcome
  | [], _, _, g => { state := g, fatal := false }
  | pid :: rest, i, colorPos, g =>
    match g.colorList[colorPos]? with
    | none => { state := g, fatal := true }
    | some c =>
      let strPid := Sprint pid
      listRange friendly rest (i + 1) ((colorPos + 1) % g.colorList.length)
        { g with
          graphColors := Function.update g.graphColors strPid (some c)
          mainListItems := g.mainListItems.set i (listItem i strPid (friendly pid) colorPos) }

/-- Lines 142-160; `friendly pid` stands for `cmdName[pid].friendly`. -/
def tuiListUpdate (g : Globals) (list : List Int) (friendly : Int → String) : Outcome :=
  listRange friendly list 0 0
    { g with graphColors := fun _ => none, mainListItems := List.replicate list.length "" }

/-! ## tuiGraphUpdate -/

/-- Lines 171-173, the closure `scale`. -/
def scale (jiffy interval : Int) (val : ℚ) : ℚ :=
  val / (jiffy : ℚ) / (interval : ℚ) * 1000 * 100

/-- Line 178. -/
def dataPoints (innerWidth : Int) : Int := innerWidth * 2 - 14

/-- Lines 180-185: the loop over `sysChartData`, `dataStart` being shared by the
iterations. -/
def sysChartRange (dataPoints : Int) : List (String × List ℚ) → Int → Globals → Outcome
  | [], _, g => { state := g, fatal := false }
  | (name, data) :: rest, dataStart, g =>
    let dataStart := if (data.length : Int) < dataPoints then (data.length : Int) else dataStart
    match sliceFrom data ((data.length : Int) - dataStart) with
    | none => { state := g, fatal := true }
    | some s =>
      sysChartRange dataPoints rest dataStart
        { g with sysChart := { g.sysChart with Data := Function.update g.sysChart.Data name (some s) } }

/-- Lines 191-199: one entry of `procDelta`. -/
def procDeltaStep (sc : ℚ → ℚ) (acc : (Int → Option (List ℚ)) × (Int → Bool))
    (e : Int × procStats) : (Int → Option (List ℚ)) × (Int → Bool) :=
  let v := sc (((e.2.utime + e.2.stime : Nat) : ℚ))
  (match acc.1 e.1 with
   | none => Function.update acc.1 e.1 (some [v])
   | some buf => Function.update acc.1 e.1 (some (buf ++ [v])),
   Function.update acc.2 e.1 true)

/-- Lines 201-205: one entry of `topPids`. -/
def padStep (updatedPids : Int → Bool) (pcd : Int → Option (List ℚ)) (pid : Int) :
    Int → Option (List ℚ) :=
  if updatedPids pid = false then
    Function.update pcd pid (some ((pcd pid).getD [] ++ [0]))
  else pcd

/-- Lines 208-219: the loop filling `graphData`. -/
def graphDataRange (pcd : Int → Option (List ℚ)) (dataPoints : Int) :
    List Int → (String → Option (List ℚ)) → Option (String → Option (List ℚ))
  | [], graphData => some graphData
  | pid :: rest, graphData =>
    if pid = 0 then graphDataRange pcd dataPoints rest graphData
    else
      let data := (pcd pid).getD []
      let dataStart := if (data.length : Int) < dataPoints then (data.length : Int) else dataPoints
      match sliceFrom data ((data.length : Int) - dataStart) with
      | none => none
      | some s => graphDataRange pcd dataPoints rest (Function.update graphData (Sprint pid) (some s))

/-- Lines 189-205: the update of the process store. -/
def procStoreUpdate (sc : ℚ → ℚ) (procDelta : List (Int × procStats)) (topPids : List Int)
    (pcd : Int → Option (List ℚ)) : Int → Option (List ℚ) :=
  let r := procDelta.foldl (procDeltaStep sc) (pcd, fun _ => false)
  topPids.foldl (padStep r.2) r.1

/-- The entries of `sysChartData` in the order `range` visits them. -/
def sysEntries (usrFirst : Bool) (d : SysChartData) : List (String × List ℚ) :=
  if usrFirst then [("usr", d.usr), ("sys", d.sys)] else [("sys", d.sys), ("usr", d.usr)]

/-- Lines 186-223: the rest of the tick after the loop over `sysChartData`. -/
def graphUpdateRest (sc : ℚ → ℚ) (dp : Int) (inp : TickInput) (g2 : Globals) : Outcome :=
  match sliceFrom g2.dataLabels ((g2.dataLabels.length : Int) - dp) with
  | none => { state := g2, fatal := true }
  | some lbl =>
    let g3 : Globals := { g2 with sysChart := { g2.sysChart with DataLabels := lbl } }
    let g4 : Globals :=
      { g3 with procChartData := procStoreUpdate sc inp.procDelta inp.topPids g3.procChartData }
    match graphDataRange g4.procChartData dp inp.topPids (fun _ => none) with
    | none => { state := g4, fatal := true }
    | some graphData =>
      let g5 : Globals :=
        { g4 with procChart := { g4.procChart with Data := graphData, LineColor := g4.graphColors } }
      match sliceFrom g5.dataLabels ((g5.dataLabels.length : Int) - dp) with
      | none => { state := g5, fatal := true }
      | some lbl2 =>
        { state := { g5 with procChart := { g5.procChart with DataLabels := lbl2 } },
          fatal := false }

/-- Lines 162-224. -/
def tuiGraphUpdate (g : Globals) (inp : TickInput) : Outcome :=
  let sc := scale inp.jiffy inp.interval
  let g1 : Globals :=
    { g with sysChartData :=
      { usr := g.sysChartData.usr ++ [sc (inp.sysDelta.usr : ℚ)],
        sys := g.sysChartData.sys ++ [sc (inp.sysDelta.sys : ℚ)] } }
  let dp := dataPoints inp.innerWidth
  let o := sysChartRange dp (sysEntries inp.usrFirst g1.sysChartData) dp g1
  if o.fatal then o else graphUpdateRest sc dp inp o.state

/-- States reached from `tuiInit` by calls of the two update functions. -/
inductive Reachable : Globals → Prop
  | init (ColorRGB24 : Nat → Nat → Nat → Attribute) (tieUp : Nat → Bool) (interval : Int) :
      Reachable (tuiInit ColorRGB24 tieUp interval)
  | graph (g : Globals) (inp : TickInput) :
      Reachable g → Reachable (tuiGraphUpdate g inp).state
  | list (g : Globals) (l : List Int) (friendly : Int → String) :
      Reachable g → Reachable (tuiListUpdate g l friendly).state

/-- The last `n` elements of `xs`, in order (all of `xs` when `n ≥ len xs`). -/
def lastN {α : Type} (n : Nat) (xs : List α) : List α := xs.drop (xs.length - n)

/-- The store after a sequence of ticks. -/
def runTicks (g : Globals) (inps : List TickInput) : Globals :=
  inps.foldl (fun s inp => (tuiGraphUpdate s inp).state) g

/-- Length of `procChartData[pid]`, Go `len` of a possibly missing entry. -/
def procLen (g : Globals) (pid : Int) : Nat := ((g.procChartData pid).getD []).length

/-- Value of a decimal digit character. -/
def digitVal (c : Char) : Nat := c.toNat - 48

/-- Value of a string of decimal digits. -/
def decodeNat (cs : List Char) : Nat := cs.foldl (fun acc c => 10 * acc + digitVal c) 0

/-- Invariant of the reachable states: the two system buffers have one length,
the label table has 1024 entries and the palette 15. -/
def WellFormed (g : Globals) : Prop :=
  g.sysChartData.usr.length = g.sysChartData.sys.length ∧ g.dataLabels.length = 1024 ∧
    g.colorList.length = 15

/-- A start state for the worked examples: `tuiInit` with the usual 24-bit
packing for `ColorRGB24`, ties rounded down, and a one-second interval. -/
def demoInit : Globals :=
  tuiInit (fun r g b => r * 65536 + g * 256 + b) (fun _ => false) 1000

/-- A tick for the worked examples: inner width `w`, jiffy 100, interval 1000. -/
def demoTick (w : Int) (procDelta : List (Int × procStats)) (topPids : List Int) : TickInput :=
  { sysDelta := { usr := 7, sys := 3 }, procDelta := procDelta, topPids := topPids,
    jiffy := 100, interval := 1000, innerWidth := w, usrFirst := true }

/-! ## Slices -/

theorem sliceFrom_min {α : Type} (xs : List α) (dp : Int) (h : 0 ≤ dp) :
    sliceFrom xs ((xs.length : Int) - (if (xs.length : Int) < dp then (xs.length : Int) else dp))
      = some (lastN (min dp.toNat xs.length) xs) := by
  unfold sliceFrom lastN
  by_cases h1 : (xs.length : Int) < dp
  · have h2 : min dp.toNat xs.length = xs.length := by omega
    simp [h1, h2]
  · have h2 : min dp.toNat xs.length = dp.toNat := by omega
    have h3 : ((xs.length : Int) - dp).toNat = xs.length - dp.toNat := by omega
    have h4 : dp ≤ (xs.length : Int) := by omega
    simp [h1, h2, h3, h4, h]

/-! ## The process store -/

theorem procDeltaStep_fst_ne (sc : ℚ → ℚ) (acc : (Int → Option (List ℚ)) × (Int → Bool))
    (e : Int × procStats) (pid : Int) (h : pid ≠ e.1) :
    (procDeltaStep sc acc e).1 pid = acc.1 pid := by
  unfold procDeltaStep
  cases hb : acc.1 e.1 <;> simp [Function.update_noteq h]

theorem procDeltaStep_fst_same (sc : ℚ → ℚ) (acc : (Int → Option (List ℚ)) × (Int → Bool))
    (e : Int × procStats) :
    (procDeltaStep sc acc e).1 e.1
      = some ((acc.1 e.1).getD [] ++ [sc (((e.2.utime + e.2.stime : Nat) : ℚ))]) := by
  unfold procDeltaStep
  cases hb : acc.1 e.1 <;> simp

theorem procDeltaStep_snd (sc : ℚ → ℚ) (acc : (Int → Option (List ℚ)) × (Int → Bool))
    (e : Int × procStats) (pid : Int) :
    (procDeltaStep sc acc e).2 pid = (decide (pid = e.1) || acc.2 pid) := by
  unfold procDeltaStep
  by_cases h : pid = e.1
  · subst h; simp
  · simp [Function.update_noteq h, h]

theorem procDelta_fold_notin (sc : ℚ → ℚ) (l : List (Int × procStats)) (pid : Int)
    (h : pid ∉ l.map Prod.fst) (acc : (Int → Option (List ℚ)) × (Int → Bool)) :
    (l.foldl (procDeltaStep sc) acc).1 pid = acc.1 pid := by
  induction l generalizing acc with
  | nil => rfl
  | cons e rest ih =>
    simp only [List.map_cons, List.mem_cons, not_or] at h
    rw [List.foldl_cons, ih h.2, procDeltaStep_fst_ne sc acc e pid h.1]

theorem procDelta_fold_updated (sc : ℚ → ℚ) (l : List (Int × procStats)) (pid : Int)
    (acc : (Int → Option (List ℚ)) × (Int → Bool)) :
    (l.foldl (procDeltaStep sc) acc).2 pid = (decide (pid ∈ l.map Prod.fst) || acc.2 pid) := by
  induction l generalizing acc with
  | nil => simp
  | cons e rest ih =>
    rw [List.foldl_cons, ih, procDeltaStep_snd]
    by_cases h1 : pid = e.1 <;> by_cases h2 : pid ∈ rest.map Prod.fst <;> simp [h1, h2]

theorem procDelta_fold_extends (sc : ℚ → ℚ) (l : List (Int × procStats)) (pid : Int)
    (acc : (Int → Option (List ℚ)) × (Int → Bool)) (buf : List ℚ) (h : acc.1 pid = some buf) :
    ∃ ext, (l.foldl (procDeltaStep sc) acc).1 pid = some (buf ++ ext) := by
  induction l generalizing acc buf with
  | nil => exact ⟨[], by simpa using h⟩
  | cons e rest ih =>
    rw [List.foldl_cons]
    by_cases hp : pid = e.1
    · have hs := procDeltaStep_fst_same sc acc e
      rw [← hp, h] at hs
      obtain ⟨ext, hext⟩ := ih (procDeltaStep sc acc e) _ hs
      exact ⟨sc (((e.2.utime + e.2.stime : Nat) : ℚ)) :: ext, by rw [hext]; simp⟩
    · have hs := procDeltaStep_fst_ne sc acc e pid hp
      rw [h] at hs
      exact ih _ _ hs

theorem procDelta_fold_mem (sc : ℚ → ℚ) (l : List (Int × procStats)) (pid : Int) (d : procStats)
    (hnd : (l.map Prod.fst).Nodup) (hm : (pid, d) ∈ l)
    (acc : (Int → Option (List ℚ)) × (Int → Bool)) :
    (l.foldl (procDeltaStep sc) acc).1 pid
      = some ((acc.1 pid).getD [] ++ [sc (((d.utime + d.stime : Nat) : ℚ))]) := by
  induction l generalizing acc with
  | nil => simp at hm
  | cons e rest ih =>
    rw [List.foldl_cons]
    simp only [List.map_cons, List.nodup_cons] at hnd
    rcases List.mem_cons.1 hm with he | hr
    · subst he
      rw [procDelta_fold_notin sc rest pid hnd.1]
      exact procDeltaStep_fst_same sc acc (pid, d)
    · have hne : pid ≠ e.1 := by
        intro hp
        apply hnd.1
        rw [← hp]
        exact List.mem_map_of_mem Prod.fst hr
      rw [ih hnd.2 hr, procDeltaStep_fst_ne sc acc e pid hne]

theorem padStep_ne (up : Int → Bool) (pcd : Int → Option (List ℚ)) (p pid : Int) (h : pid ≠ p) :
    padStep up pcd p pid = pcd pid := by
  unfold padStep
  split_ifs <;> simp [Function.update_noteq h]

theorem padStep_same (up : Int → Bool) (pcd : Int → Option (List ℚ)) (pid : Int) :
    padStep up pcd pid pid
      = if up pid = false then some ((pcd pid).getD [] ++ [0]) else pcd pid := by
  unfold padStep
  split_ifs <;> simp

theorem pad_fold (up : Int → Bool) (l : List Int) (pid : Int) (pcd : Int → Option (List ℚ)) :
    (l.foldl (padStep up) pcd) pid
      = if up pid = false ∧ 0 < l.count pid
        then some ((pcd pid).getD [] ++ List.replicate (l.count pid) 0) else pcd pid := by
  induction l generalizing pcd with
  | nil => simp
  | cons p rest ih =>
    rw [List.foldl_cons, ih]
    by_cases hp : pid = p
    · subst hp
      rw [padStep_same]
      by_cases hu : up pid = false
      · by_cases hc : 0 < rest.count pid
        · simp [hu, hc, List.replicate_succ]
        · have hc0 : rest.count pid = 0 := by omega
          simp [hu, hc0]
      · simp [hu]
    · have hne : (p == pid) = false := by simpa using fun h => hp h.symm
      rw [padStep_ne up pcd p pid hp, List.count_cons, hne]
      simp

/-! ## Decimal printing is injective -/

theorem digitVal_digitChar (d : Nat) (h : d < 10) : digitVal (Nat.digitChar d) = d := by
  interval_cases d <;> decide

theorem digitChar_ne_minus (d : Nat) (h : d < 10) : Nat.digitChar d ≠ '-' := by
  interval_cases d <;> decide

theorem toDigitsCore_spec (fuel : Nat) : ∀ (n : Nat) (ds : List Char), n < fuel →
    ∃ pre, Nat.toDigitsCore 10 fuel n ds = pre ++ ds ∧ decodeNat pre = n ∧
      pre ≠ [] ∧ ∀ c ∈ pre, c ≠ '-' := by
  induction fuel with
  | zero => intro n ds h; omega
  | succ fuel ih =>
    intro n ds h
    have hd : n % 10 < 10 := Nat.mod_lt _ (by decide)
    by_cases h0 : n / 10 = 0
    · refine ⟨[Nat.digitChar (n % 10)], ?_, ?_, by simp, ?_⟩
      · simp [Nat.toDigitsCore, h0]
      · simp only [decodeNat, List.foldl_cons, List.foldl_nil, digitVal_digitChar _ hd]
        omega
      · intro c hc
        simp only [List.mem_singleton] at hc
        rw [hc]
        exact digitChar_ne_minus _ hd
    · obtain ⟨pre, hpre, hval, _, hall⟩ := ih (n / 10) (Nat.digitChar (n % 10) :: ds) (by omega)
      refine ⟨pre ++ [Nat.digitChar (n % 10)], ?_, ?_, by simp, ?_⟩
      · simp [Nat.toDigitsCore, h0, hpre]
      · have : decodeNat (pre ++ [Nat.digitChar (n % 10)])
            = 10 * decodeNat pre + digitVal (Nat.digitChar (n % 10)) := by
          simp [decodeNat, List.foldl_append]
        rw [this, hval, digitVal_digitChar _ hd]
        omega
      · intro c hc
        rcases List.mem_append.1 hc with h1 | h1
        · exact hall c h1
        · simp only [List.mem_singleton] at h1
          rw [h1]
          exact digitChar_ne_minus _ hd

theorem toDigits_spec (n : Nat) :
    decodeNat (Nat.toDigits 10 n) = n ∧ Nat.toDigits 10 n ≠ [] ∧
      ∀ c ∈ Nat.toDigits 10 n, c ≠ '-' := by
  obtain ⟨pre, hpre, hval, hne, hall⟩ := toDigitsCore_spec (n + 1) n [] (by omega)
  have : Nat.toDigits 10 n = pre := by simpa [Nat.toDigits] using hpre
  rw [this]
  exact ⟨hval, hne, hall⟩

theorem Sprint_data (pid : Int) :
    (Sprint pid).data = match pid with
      | Int.ofNat m => Nat.toDigits 10 m
      | Int.negSucc m => '-' :: Nat.toDigits 10 (m + 1) := by
  cases pid with
  | ofNat m => rfl
  | negSucc m => rfl

theorem Sprint_injective : Function.Injective Sprint := by
  intro a b hab
  have h := congrArg String.data hab
  rw [Sprint_data, Sprint_data] at h
  cases a with
  | ofNat m =>
    cases b with
    | ofNat k =>
      simp only at h
      have := congrArg decodeNat h
      rw [(toDigits_spec m).1, (toDigits_spec k).1] at this
      rw [this]
    | negSucc k =>
      simp only at h
      obtain ⟨_, hne, hall⟩ := toDigits_spec m
      exfalso
      cases hd : Nat.toDigits 10 m with
      | nil => exact hne hd
      | cons c cs =>
        rw [hd] at h hall
        injection h with h1 h2
        exact hall c (List.mem_cons_self _ _) h1
  | negSucc m =>
    cases b with
    | ofNat k =>
      simp only at h
      obtain ⟨_, hne, hall⟩ := toDigits_spec k
      exfalso
      cases hd : Nat.toDigits 10 k with
      | nil => exact hne hd
      | cons c cs =>
        rw [hd] at h hall
        injection h with h1 h2
        exact hall c (List.mem_cons_self _ _) h1.symm
    | negSucc k =>
      simp only at h
      injection h with _ h2
      have := congrArg decodeNat h2
      rw [(toDigits_spec _).1, (toDigits_spec _).1] at this
      have : m = k := by omega
      rw [this]

/-! ## The chart loops -/

theorem sysChartRange_state (dp : Int) (l : List (String × List ℚ)) (ds : Int) (g : Globals) :
    ∃ D, (sysChartRange dp l ds g).state = { g with sysChart := { g.sysChart with Data := D } } := by
  induction l generalizing ds g with
  | nil => exact ⟨g.sysChart.Data, rfl⟩
  | cons e rest ih =>
    obtain ⟨name, data⟩ := e
    simp only [sysChartRange]
    split
    · exact ⟨g.sysChart.Data, rfl⟩
    · rename_i s hs
      obtain ⟨D, hD⟩ := ih (if (data.length : Int) < dp then (data.length : Int) else ds)
        { g with sysChart := { g.sysChart with Data := Function.update g.sysChart.Data name (some s) } }
      exact ⟨D, by rw [hD]⟩

theorem sysChartRange_neg (dp : Int) (h : dp < 0) (e : String × List ℚ)
    (rest : List (String × List ℚ)) (g : Globals) :
    sysChartRange dp (e :: rest) dp g = { state := g, fatal := true } := by
  obtain ⟨name, data⟩ := e
  have h1 : ¬ ((data.length : Int) < dp) := by omega
  have h2 : sliceFrom data ((data.length : Int) - dp) = none := by
    unfold sliceFrom
    rw [if_neg]
    omega
  simp only [sysChartRange, h1, if_false, h2]

theorem sysChartRange_two (dp : Int) (h : 0 ≤ dp) (n1 n2 : String) (d1 d2 : List ℚ)
    (hlen : d1.length = d2.length) (g : Globals) :
    sysChartRange dp [(n1, d1), (n2, d2)] dp g =
      { state := { g with sysChart := { g.sysChart with
          Data := Function.update (Function.update g.sysChart.Data n1
            (some (lastN (min dp.toNat d1.length) d1))) n2
            (some (lastN (min dp.toNat d2.length) d2)) } },
        fatal := false } := by
  have e1 := sliceFrom_min d1 dp h
  have e2 : sliceFrom d2 ((d2.length : Int) -
      (if (d2.length : Int) < dp then (d2.length : Int)
        else if (d1.length : Int) < dp then (d1.length : Int) else dp))
      = some (lastN (min dp.toNat d2.length) d2) := by
    rw [← sliceFrom_min d2 dp h, hlen]
    by_cases hc : (d2.length : Int) < dp <;> simp [hc]
  simp only [sysChartRange, e1, e2]

theorem sysChartRange_two_ok (dp : Int) (h : 0 ≤ dp) (n1 n2 : String) (d1 d2 : List ℚ)
    (g : Globals) : (sysChartRange dp [(n1, d1), (n2, d2)] dp g).fatal = false := by
  have e1 := sliceFrom_min d1 dp h
  have e2 : ∃ s, sliceFrom d2 ((d2.length : Int) -
      (if (d2.length : Int) < dp then (d2.length : Int)
        else if (d1.length : Int) < dp then (d1.length : Int) else dp)) = some s := by
    unfold sliceFrom
    refine ⟨_, if_pos ?_⟩
    split_ifs <;> omega
  obtain ⟨s, hs⟩ := e2
  simp only [sysChartRange, e1, hs]

theorem graphDataRange_spec (pcd : Int → Option (List ℚ)) (dp : Int) (h : 0 ≤ dp)
    (l : List Int) (gd : String → Option (List ℚ)) :
    ∃ gd2, graphDataRange pcd dp l gd = some gd2 ∧
      (∀ pid ∈ l, pid ≠ 0 → gd2 (Sprint pid)
          = some (lastN (min dp.toNat ((pcd pid).getD []).length) ((pcd pid).getD []))) ∧
      (∀ k, (∀ pid ∈ l, pid ≠ 0 → Sprint pid ≠ k) → gd2 k = gd k) := by
  induction l generalizing gd with
  | nil => exact ⟨gd, rfl, by simp, fun _ _ => rfl⟩
  | cons p rest ih =>
    by_cases hp : p = 0
    · obtain ⟨gd2, h1, h2, h3⟩ := ih gd
      refine ⟨gd2, by simp [graphDataRange, hp, h1], ?_, ?_⟩
      · intro pid hm hne
        rcases List.mem_cons.1 hm with he | hr
        · exact absurd (he.trans hp) hne
        · exact h2 pid hr hne
      · intro k hk
        exact h3 k (fun pid hm hne => hk pid (List.mem_cons_of_mem _ hm) hne)
    · obtain ⟨gd2, h1, h2, h3⟩ := ih (Function.update gd (Sprint p)
        (some (lastN (min dp.toNat ((pcd p).getD []).length) ((pcd p).getD []))))
      refine ⟨gd2, ?_, ?_, ?_⟩
      · simp only [graphDataRange, hp, if_false, sliceFrom_min _ dp h]
        exact h1
      · intro pid hm hne
        by_cases hr : pid ∈ rest
        · exact h2 pid hr hne
        · have he : pid = p := by
            rcases List.mem_cons.1 hm with he | hr2
            · exact he
            · exact absurd hr2 hr
          subst he
          rw [h3 (Sprint pid)]
          · simp
          · intro q hq _ hsq
            exact hr (Sprint_injective hsq ▸ hq)
      · intro k hk
        rw [h3 k (fun pid hm hne => hk pid (List.mem_cons_of_mem _ hm) hne)]
        exact Function.update_noteq (fun hks => hk p (List.mem_cons_self _ _) hp hks.symm) _ _

/-! ## One tick -/

theorem rest_frame (sc : ℚ → ℚ) (dp : Int) (inp : TickInput) (g2 : Globals) :
    (graphUpdateRest sc dp inp g2).state.sysChartData = g2.sysChartData ∧
      (graphUpdateRest sc dp inp g2).state.dataLabels = g2.dataLabels ∧
      (graphUpdateRest sc dp inp g2).state.colorList = g2.colorList ∧
      (graphUpdateRest sc dp inp g2).state.graphColors = g2.graphColors ∧
      (graphUpdateRest sc dp inp g2).state.mainListItems = g2.mainListItems ∧
      ((graphUpdateRest sc dp inp g2).state.procChartData = g2.procChartData ∨
        (graphUpdateRest sc dp inp g2).state.procChartData =
          procStoreUpdate sc inp.procDelta inp.topPids g2.procChartData) ∧
      ((graphUpdateRest sc dp inp g2).fatal = false →
        (graphUpdateRest sc dp inp g2).state.procChartData =
          procStoreUpdate sc inp.procDelta inp.topPids g2.procChartData) := by
  cases h1 : sliceFrom g2.dataLabels ((g2.dataLabels.length : Int) - dp) with
  | none => simp [graphUpdateRest, h1]
  | some lbl =>
    cases h2 : graphDataRange (procStoreUpdate sc inp.procDelta inp.topPids g2.procChartData)
        dp inp.topPids (fun _ => none) with
    | none => simp [graphUpdateRest, h1, h2]
    | some gd => simp [graphUpdateRest, h1, h2]

theorem rest_fatal_of_lt (sc : ℚ → ℚ) (dp : Int) (inp : TickInput) (g2 : Globals)
    (h : (g2.dataLabels.length : Int) < dp) : (graphUpdateRest sc dp inp g2).fatal = true := by
  have hs : sliceFrom g2.dataLabels ((g2.dataLabels.length : Int) - dp) = none := by
    unfold sliceFrom
    rw [if_neg]
    omega
  unfold graphUpdateRest
  rw [hs]

theorem sliceFrom_labels (labels : List String) (dp : Int) (h0 : 0 ≤ dp)
    (h1 : dp ≤ (labels.length : Int)) :
    sliceFrom labels ((labels.length : Int) - dp) = some (lastN dp.toNat labels) := by
  unfold sliceFrom lastN
  rw [if_pos (by omega)]
  congr 2
  omega

theorem rest_ok (sc : ℚ → ℚ) (dp : Int) (inp : TickInput) (g2 : Globals) (h0 : 0 ≤ dp)
    (h1 : dp ≤ (g2.dataLabels.length : Int)) :
    (graphUpdateRest sc dp inp g2).fatal = false ∧
      (graphUpdateRest sc dp inp g2).state.sysChart.Data = g2.sysChart.Data ∧
      (graphUpdateRest sc dp inp g2).state.sysChart.DataLabels = lastN dp.toNat g2.dataLabels ∧
      (graphUpdateRest sc dp inp g2).state.procChart.DataLabels = lastN dp.toNat g2.dataLabels ∧
      (graphUpdateRest sc dp inp g2).state.procChart.LineColor = g2.graphColors ∧
      (∀ pid ∈ inp.topPids, pid ≠ 0 →
        (graphUpdateRest sc dp inp g2).state.procChart.Data (Sprint pid) =
          some (lastN (min dp.toNat (((graphUpdateRest sc dp inp g2).state.procChartData pid).getD []).length)
            (((graphUpdateRest sc dp inp g2).state.procChartData pid).getD []))) ∧
      (∀ k, (∀ pid ∈ inp.topPids, pid ≠ 0 → Sprint pid ≠ k) →
        (graphUpdateRest sc dp inp g2).state.procChart.Data k = none) := by
  obtain ⟨gd, hgd, hin, hout⟩ := graphDataRange_spec
    (procStoreUpdate sc inp.procDelta inp.topPids g2.procChartData) dp h0 inp.topPids (fun _ => none)
  have hl := sliceFrom_labels g2.dataLabels dp h0 h1
  unfold graphUpdateRest
  simp only [hl, hgd]
  exact ⟨trivial, trivial, trivial, trivial, trivial, hin, hout⟩

theorem core_frame (sc : ℚ → ℚ) (dp : Int) (inp : TickInput) (l : List (String × List ℚ))
    (g1 : Globals) (r : Outcome)
    (hr : r = if (sysChartRange dp l dp g1).fatal then sysChartRange dp l dp g1
      else graphUpdateRest sc dp inp (sysChartRange dp l dp g1).state) :
    r.state.sysChartData = g1.sysChartData ∧
      r.state.dataLabels = g1.dataLabels ∧
      r.state.colorList = g1.colorList ∧
      r.state.graphColors = g1.graphColors ∧
      r.state.mainListItems = g1.mainListItems ∧
      (r.state.procChartData = g1.procChartData ∨
        r.state.procChartData = procStoreUpdate sc inp.procDelta inp.topPids g1.procChartData) ∧
      (r.fatal = false →
        r.state.procChartData = procStoreUpdate sc inp.procDelta inp.topPids g1.procChartData) := by
  obtain ⟨D, hD⟩ := sysChartRange_state dp l dp g1
  by_cases hf : (sysChartRange dp l dp g1).fatal = true
  · rw [if_pos hf] at hr
    subst hr
    simp [hD, hf]
  · rw [if_neg hf] at hr
    subst hr
    have := rest_frame sc dp inp (sysChartRange dp l dp g1).state
    rw [hD] at this ⊢
    simpa using this

theorem tick_frame (g : Globals) (inp : TickInput) :
    (tuiGraphUpdate g inp).state.sysChartData =
        { usr := g.sysChartData.usr ++ [scale inp.jiffy inp.interval (inp.sysDelta.usr : ℚ)],
          sys := g.sysChartData.sys ++ [scale inp.jiffy inp.interval (inp.sysDelta.sys : ℚ)] } ∧
      (tuiGraphUpdate g inp).state.dataLabels = g.dataLabels ∧
      (tuiGraphUpdate g inp).state.colorList = g.colorList ∧
      (tuiGraphUpdate g inp).state.graphColors = g.graphColors ∧
      (tuiGraphUpdate g inp).state.mainListItems = g.mainListItems ∧
      ((tuiGraphUpdate g inp).state.procChartData = g.procChartData ∨
        (tuiGraphUpdate g inp).state.procChartData =
          procStoreUpdate (scale inp.jiffy inp.interval) inp.procDelta inp.topPids
            g.procChartData) ∧
      ((tuiGraphUpdate g inp).fatal = false →
        (tuiGraphUpdate g inp).state.procChartData =
          procStoreUpdate (scale inp.jiffy inp.interval) inp.procDelta inp.topPids
            g.procChartData) :=
  core_frame (scale inp.jiffy inp.interval) (dataPoints inp.innerWidth) inp _ _ _ rfl

theorem tick_fatal_iff (g : Globals) (inp : TickInput) (hl : g.dataLabels.length = 1024) :
    (tuiGraphUpdate g inp).fatal = false ↔
      0 ≤ dataPoints inp.innerWidth ∧ dataPoints inp.innerWidth ≤ 1024 := by
  obtain ⟨D, hD⟩ := sysChartRange_state (dataPoints inp.innerWidth)
    (sysEntries inp.usrFirst
      { usr := g.sysChartData.usr ++ [scale inp.jiffy inp.interval (inp.sysDelta.usr : ℚ)],
        sys := g.sysChartData.sys ++ [scale inp.jiffy inp.interval (inp.sysDelta.sys : ℚ)] })
    (dataPoints inp.innerWidth)
    { g with sysChartData :=
      { usr := g.sysChartData.usr ++ [scale inp.jiffy inp.interval (inp.sysDelta.usr : ℚ)],
        sys := g.sysChartData.sys ++ [scale inp.jiffy inp.interval (inp.sysDelta.sys : ℚ)] } }
  by_cases h0 : 0 ≤ dataPoints inp.innerWidth
  · have hok : (sysChartRange (dataPoints inp.innerWidth)
        (sysEntries inp.usrFirst
          { usr := g.sysChartData.usr ++ [scale inp.jiffy inp.interval (inp.sysDelta.usr : ℚ)],
            sys := g.sysChartData.sys ++ [scale inp.jiffy inp.interval (inp.sysDelta.sys : ℚ)] })
        (dataPoints inp.innerWidth)
        { g with sysChartData :=
          { usr := g.sysChartData.usr ++ [scale inp.jiffy inp.interval (inp.sysDelta.usr : ℚ)],
            sys := g.sysChartData.sys ++ [scale inp.jiffy inp.interval (inp.sysDelta.sys : ℚ)] } }).fatal
          = false := by
      unfold sysEntries
      split <;> exact sysChartRange_two_ok _ h0 _ _ _ _ _
    have hlab : (sysChartRange (dataPoints inp.innerWidth)
        (sysEntries inp.usrFirst
          { usr := g.sysChartData.usr ++ [scale inp.jiffy inp.interval (inp.sysDelta.usr : ℚ)],
            sys := g.sysChartData.sys ++ [scale inp.jiffy inp.interval (inp.sysDelta.sys : ℚ)] })
        (dataPoints inp.innerWidth)
        { g with sysChartData :=
          { usr := g.sysChartData.usr ++ [scale inp.jiffy inp.interval (inp.sysDelta.usr : ℚ)],
            sys := g.sysChartData.sys ++ [scale inp.jiffy inp.interval (inp.sysDelta.sys : ℚ)] } }).state.dataLabels.length
          = 1024 := by
      rw [hD]
      exact hl
    unfold tuiGraphUpdate
    simp only [hok]
    by_cases h1 : dataPoints inp.innerWidth ≤ 1024
    · have := (rest_ok (scale inp.jiffy inp.interval) (dataPoints inp.innerWidth) inp _ h0
        (by rw [hlab]; exact_mod_cast h1)).1
      simp [this, h0, h1]
    · have := rest_fatal_of_lt (scale inp.jiffy inp.interval) (dataPoints inp.innerWidth) inp _
        (by rw [hlab]; push_cast; omega)
      simp [this, h1]
  · have hneg : dataPoints inp.innerWidth < 0 := by omega
    have hbad : (sysChartRange (dataPoints inp.innerWidth)
        (sysEntries inp.usrFirst
          { usr := g.sysChartData.usr ++ [scale inp.jiffy inp.interval (inp.sysDelta.usr : ℚ)],
            sys := g.sysChartData.sys ++ [scale inp.jiffy inp.interval (inp.sysDelta.sys : ℚ)] })
        (dataPoints inp.innerWidth)
        { g with sysChartData :=
          { usr := g.sysChartData.usr ++ [scale inp.jiffy inp.interval (inp.sysDelta.usr : ℚ)],
            sys := g.sysChartData.sys ++ [scale inp.jiffy inp.interval (inp.sysDelta.sys : ℚ)] } }).fatal
          = true := by
      unfold sysEntries
      split <;> rw [sysChartRange_neg _ hneg]
    unfold tuiGraphUpdate
    simp [hbad, h0]

theorem tick_eq_rest (g : Globals) (inp : TickInput)
    (hlen : g.sysChartData.usr.length = g.sysChartData.sys.length)
    (h0 : 0 ≤ dataPoints inp.innerWidth) :
    ∃ D : String → Option (List ℚ),
      D "usr" = some (lastN (min (dataPoints inp.innerWidth).toNat
          (g.sysChartData.usr ++ [scale inp.jiffy inp.interval (inp.sysDelta.usr : ℚ)]).length)
        (g.sysChartData.usr ++ [scale inp.jiffy inp.interval (inp.sysDelta.usr : ℚ)])) ∧
      D "sys" = some (lastN (min (dataPoints inp.innerWidth).toNat
          (g.sysChartData.sys ++ [scale inp.jiffy inp.interval (inp.sysDelta.sys : ℚ)]).length)
        (g.sysChartData.sys ++ [scale inp.jiffy inp.interval (inp.sysDelta.sys : ℚ)])) ∧
      tuiGraphUpdate g inp =
        graphUpdateRest (scale inp.jiffy inp.interval) (dataPoints inp.innerWidth) inp
          { g with
            sysChartData :=
              { usr := g.sysChartData.usr ++ [scale inp.jiffy inp.interval (inp.sysDelta.usr : ℚ)],
                sys := g.sysChartData.sys ++ [scale inp.jiffy inp.interval (inp.sysDelta.sys : ℚ)] }
            sysChart := { g.sysChart with Data := D } } := by
  have hlen2 : (g.sysChartData.usr ++ [scale inp.jiffy inp.interval (inp.sysDelta.usr : ℚ)]).length
      = (g.sysChartData.sys ++ [scale inp.jiffy inp.interval (inp.sysDelta.sys : ℚ)]).length := by
    simp [hlen]
  have hus : ("usr" : String) ≠ "sys" := by decide
  cases hu : inp.usrFirst
  · refine ⟨Function.update (Function.update g.sysChart.Data "sys"
        (some (lastN (min (dataPoints inp.innerWidth).toNat
          (g.sysChartData.sys ++ [scale inp.jiffy inp.interval (inp.sysDelta.sys : ℚ)]).length)
          (g.sysChartData.sys ++ [scale inp.jiffy inp.interval (inp.sysDelta.sys : ℚ)])))) "usr"
        (some (lastN (min (dataPoints inp.innerWidth).toNat
          (g.sysChartData.usr ++ [scale inp.jiffy inp.interval (inp.sysDelta.usr : ℚ)]).length)
          (g.sysChartData.usr ++ [scale inp.jiffy inp.interval (inp.sysDelta.usr : ℚ)]))), ?_, ?_, ?_⟩
    rotate_left 2
    · unfold tuiGraphUpdate sysEntries
      simp only [hu, Bool.false_eq_true, if_false]
      rw [sysChartRange_two _ h0 _ _ _ _ hlen2.symm]
      simp only [Bool.false_eq_true, if_false]
    · simp
    · simp [Function.update_noteq hus.symm]
  · refine ⟨Function.update (Function.update g.sysChart.Data "usr"
        (some (lastN (min (dataPoints inp.innerWidth).toNat
          (g.sysChartData.usr ++ [scale inp.jiffy inp.interval (inp.sysDelta.usr : ℚ)]).length)
          (g.sysChartData.usr ++ [scale inp.jiffy inp.interval (inp.sysDelta.usr : ℚ)])))) "sys"
        (some (lastN (min (dataPoints inp.innerWidth).toNat
          (g.sysChartData.sys ++ [scale inp.jiffy inp.interval (inp.sysDelta.sys : ℚ)]).length)
          (g.sysChartData.sys ++ [scale inp.jiffy inp.interval (inp.sysDelta.sys : ℚ)]))), ?_, ?_, ?_⟩
    rotate_left 2
    · unfold tuiGraphUpdate sysEntries
      simp only [hu, if_true]
      rw [sysChartRange_two _ h0 _ _ _ _ hlen2]
      simp only [Bool.false_eq_true, if_false]
    · simp [Function.update_noteq hus]
    · simp

theorem tick_ok (g : Globals) (inp : TickInput) (hw : WellFormed g)
    (h0 : 0 ≤ dataPoints inp.innerWidth) (h1 : dataPoints inp.innerWidth ≤ 1024) :
    (tuiGraphUpdate g inp).fatal = false ∧
      (tuiGraphUpdate g inp).state.sysChart.Data "usr" =
        some (lastN (min (dataPoints inp.innerWidth).toNat
            (tuiGraphUpdate g inp).state.sysChartData.usr.length)
          (tuiGraphUpdate g inp).state.sysChartData.usr) ∧
      (tuiGraphUpdate g inp).state.sysChart.Data "sys" =
        some (lastN (min (dataPoints inp.innerWidth).toNat
            (tuiGraphUpdate g inp).state.sysChartData.sys.length)
          (tuiGraphUpdate g inp).state.sysChartData.sys) ∧
      (tuiGraphUpdate g inp).state.sysChart.DataLabels =
        lastN (dataPoints inp.innerWidth).toNat g.dataLabels ∧
      (tuiGraphUpdate g inp).state.procChart.DataLabels =
        lastN (dataPoints inp.innerWidth).toNat g.dataLabels ∧
      (∀ pid ∈ inp.topPids, pid ≠ 0 →
        (tuiGraphUpdate g inp).state.procChart.Data (Sprint pid) =
          some (lastN (min (dataPoints inp.innerWidth).toNat
              (((tuiGraphUpdate g inp).state.procChartData pid).getD []).length)
            (((tuiGraphUpdate g inp).state.procChartData pid).getD []))) ∧
      (∀ k, (∀ pid ∈ inp.topPids, pid ≠ 0 → Sprint pid ≠ k) →
        (tuiGraphUpdate g inp).state.procChart.Data k = none) := by
  obtain ⟨hlen, hlab, _⟩ := hw
  have hfr := tick_frame g inp
  obtain ⟨D, hDu, hDs, heq⟩ := tick_eq_rest g inp hlen h0
  rw [hfr.1]
  rw [heq]
  obtain ⟨r1, r2, r3, r4, _, r6, r7⟩ := rest_ok (scale inp.jiffy inp.interval)
    (dataPoints inp.innerWidth) inp
    { g with
      sysChartData :=
        { usr := g.sysChartData.usr ++ [scale inp.jiffy inp.interval (inp.sysDelta.usr : ℚ)],
          sys := g.sysChartData.sys ++ [scale inp.jiffy inp.interval (inp.sysDelta.sys : ℚ)] }
      sysChart := { g.sysChart with Data := D } } h0
    (by show (g.dataLabels.length : Int) ≥ _; rw [hlab]; exact_mod_cast h1)
  refine ⟨r1, ?_, ?_, r3, r4, r6, r7⟩
  · rw [r2]; exact hDu
  · rw [r2]; exact hDs

theorem foldl_set_getElem? {α : Type} (f : Nat → α) (d : α) (n : Nat) :
    ∀ k, k ≤ n → ∀ j,
      ((List.range k).foldl (fun tbl i => tbl.set i (f i)) (List.replicate n d))[j]?
        = if j < k then some (f j) else if j < n then some d else none := by
  intro k
  induction k with
  | zero =>
    intro _ j
    by_cases hj : j < n
    · simp [hj]
    · simp [hj]; omega
  | succ k ih =>
    intro hk j
    rw [List.range_succ, List.foldl_append, List.foldl_cons, List.foldl_nil, List.getElem?_set]
    have ihk := ih (by omega)
    by_cases hjk : k = j
    · subst hjk
      have hlen : k < ((List.range k).foldl (fun tbl i => tbl.set i (f i))
          (List.replicate n d)).length := by
        have := ihk k
        simp only [lt_irrefl, if_false, if_pos (show k < n by omega)] at this
        exact (List.getElem?_eq_some.1 this).1
      simp [hlen]
    · rw [if_neg hjk, ihk j]
      by_cases h1 : j < k
      · simp [h1, show j < k + 1 by omega]
      · simp [h1, show ¬ j < k + 1 by omega]

theorem buildLabels_getElem? (tieUp : Nat → Bool) (interval : Int) (j : Nat) :
    (buildLabels tieUp interval)[j]?
      = if j < 1024 then some (labelAt tieUp interval j) else none := by
  unfold buildLabels
  rw [foldl_set_getElem? (labelAt tieUp interval) "" 1024 1024 (le_refl _) j]
  by_cases h : j < 1024 <;> simp [h]

theorem buildLabels_length (tieUp : Nat → Bool) (interval : Int) :
    (buildLabels tieUp interval).length = 1024 := by
  have h1 := buildLabels_getElem? tieUp interval 1023
  have h2 := buildLabels_getElem? tieUp interval 1024
  simp only [show (1023 : Nat) < 1024 by decide, if_true, lt_irrefl, if_false] at h1 h2
  have := (List.getElem?_eq_some.1 h1).1
  have := List.getElem?_eq_none_iff.1 h2
  omega

/-! ## The list update -/

theorem listRange_spec (friendly : Int → String) (l : List Int) :
    ∀ (i cp : Nat) (g : Globals), cp < g.colorList.length →
      (listRange friendly l i cp g).fatal = false ∧
      (listRange friendly l i cp g).state.sysChartData = g.sysChartData ∧
      (listRange friendly l i cp g).state.procChartData = g.procChartData ∧
      (listRange friendly l i cp g).state.colorList = g.colorList ∧
      (listRange friendly l i cp g).state.dataLabels = g.dataLabels ∧
      (listRange friendly l i cp g).state.mainListItems.length = g.mainListItems.length ∧
      (∀ j, j < i → (listRange friendly l i cp g).state.mainListItems[j]? = g.mainListItems[j]?) ∧
      (∀ r pid, l[r]? = some pid → i + r < g.mainListItems.length →
        (listRange friendly l i cp g).state.mainListItems[i + r]?
          = some (listItem (i + r) (Sprint pid) (friendly pid) ((cp + r) % g.colorList.length))) ∧
      (∀ r pid, l[r]? = some pid → (∀ r2, r < r2 → l[r2]? ≠ some pid) →
        (listRange friendly l i cp g).state.graphColors (Sprint pid)
          = g.colorList[(cp + r) % g.colorList.length]?) ∧
      (∀ k, (∀ pid ∈ l, Sprint pid ≠ k) →
        (listRange friendly l i cp g).state.graphColors k = g.graphColors k) := by
  induction l with
  | nil =>
    intro i cp g _
    simp [listRange]
  | cons p rest ih =>
    intro i cp g hcp
    have hK : 0 < g.colorList.length := by omega
    have hc : g.colorList[cp]? = some (g.colorList.get ⟨cp, hcp⟩) := by
      simp [List.getElem?_eq_getElem hcp]
    have hcp2 : (cp + 1) % g.colorList.length < g.colorList.length := Nat.mod_lt _ hK
    obtain ⟨f1, f2, f3, f4, f5, f6, f7, f8, f9, f10⟩ := ih (i + 1) ((cp + 1) % g.colorList.length)
      { g with
        graphColors := Function.update g.graphColors (Sprint p) (some (g.colorList.get ⟨cp, hcp⟩))
        mainListItems := g.mainListItems.set i (listItem i (Sprint p) (friendly p) cp) } hcp2
    simp only [listRange, hc]
    refine ⟨f1, f2, f3, f4, f5, ?_, ?_, ?_, ?_, ?_⟩
    · rw [f6]; simp
    · intro j hj
      rw [f7 j (by omega)]
      simp only [List.getElem?_set]
      rw [if_neg (by omega)]
    · intro r pid hr hlt
      cases r with
      | zero =>
        simp only [List.getElem?_cons_zero, Option.some.injEq] at hr
        subst hr
        simp only [Nat.add_zero] at hlt ⊢
        rw [f7 i (by omega)]
        simp only [Nat.mod_eq_of_lt hcp, List.getElem?_set]
        simp [hlt]
      | succ r0 =>
        simp only [List.getElem?_cons_succ] at hr
        have := f8 r0 pid hr (by simp only [List.length_set]; omega)
        rw [show i + (r0 + 1) = i + 1 + r0 by omega]
        rw [this]
        congr 2
        rw [Nat.mod_add_mod]
        congr 1
        omega
    · intro r pid hr hlater
      cases r with
      | zero =>
        simp only [List.getElem?_cons_zero, Option.some.injEq] at hr
        subst hr
        rw [f10]
        · simp [Nat.mod_eq_of_lt hcp, hc]
        · intro q hq hs
          have hqp : q = p := Sprint_injective hs
          obtain ⟨n, hn⟩ := List.getElem?_of_mem hq
          apply hlater (n + 1) (by omega)
          simp only [List.getElem?_cons_succ]
          rw [hn, hqp]
      | succ r0 =>
        simp only [List.getElem?_cons_succ] at hr
        have := f9 r0 pid hr (fun r2 h2 => by
          have := hlater (r2 + 1) (by omega)
          simpa only [List.getElem?_cons_succ] using this)
        rw [this]
        simp only []
        rw [Nat.mod_add_mod]
        congr 2
        omega
    · intro k hk
      rw [f10 k (fun pid hm => hk pid (List.mem_cons_of_mem _ hm))]
      exact Function.update_noteq (fun h => hk p (List.mem_cons_self _ _) h.symm) _ _

theorem list_ok (g : Globals) (l : List Int) (friendly : Int → String)
    (hK : g.colorList.length = 15) :
    (tuiListUpdate g l friendly).fatal = false ∧
      (tuiListUpdate g l friendly).state.sysChartData = g.sysChartData ∧
      (tuiListUpdate g l friendly).state.procChartData = g.procChartData ∧
      (tuiListUpdate g l friendly).state.colorList = g.colorList ∧
      (tuiListUpdate g l friendly).state.dataLabels = g.dataLabels ∧
      (tuiListUpdate g l friendly).state.mainListItems.length = l.length ∧
      (∀ r pid, l[r]? = some pid →
        (tuiListUpdate g l friendly).state.mainListItems[r]?
          = some (listItem r (Sprint pid) (friendly pid) (r % 15))) ∧
      (∀ r pid, l[r]? = some pid → (∀ r2, r < r2 → l[r2]? ≠ some pid) →
        (tuiListUpdate g l friendly).state.graphColors (Sprint pid) = g.colorList[r % 15]?) ∧
      (∀ k, (∀ pid ∈ l, Sprint pid ≠ k) →
        (tuiListUpdate g l friendly).state.graphColors k = none) := by
  obtain ⟨f1, f2, f3, f4, f5, f6, _, f8, f9, f10⟩ := listRange_spec friendly l 0 0
    { g with graphColors := fun _ => none, mainListItems := List.replicate l.length "" }
    (by show 0 < g.colorList.length; omega)
  unfold tuiListUpdate
  refine ⟨f1, f2, f3, f4, f5, ?_, ?_, ?_, f10⟩
  · rw [f6]; simp
  · intro r pid hr
    have hlt : r < l.length := (List.getElem?_eq_some.1 hr).1
    have := f8 r pid hr (by simp only [List.length_replicate]; omega)
    simp only [Nat.zero_add] at this
    rw [this]
    show _ = some (listItem r (Sprint pid) (friendly pid) (r % 15))
    rw [← hK]
  · intro r pid hr hlater
    have := f9 r pid hr hlater
    simp only [Nat.zero_add] at this
    rw [this]
    show g.colorList[r % g.colorList.length]? = _
    rw [hK]

theorem tuiInit_wellFormed (ColorRGB24 : Nat → Nat → Nat → Attribute) (tieUp : Nat → Bool)
    (interval : Int) : WellFormed (tuiInit ColorRGB24 tieUp interval) := by
  unfold WellFormed tuiInit
  refine ⟨rfl, ?_, ?_⟩
  · simp only []
    exact buildLabels_length tieUp interval
  · simp [colorValues]

theorem reachable_wellFormed (g : Globals) (h : Reachable g) : WellFormed g := by
  induction h with
  | init C t i => exact tuiInit_wellFormed C t i
  | graph g inp _ ih =>
    obtain ⟨h1, h2, h3⟩ := ih
    obtain ⟨e1, e2, e3, _⟩ := tick_frame g inp
    refine ⟨?_, ?_, ?_⟩
    · rw [e1]; simp [h1]
    · rw [e2]; exact h2
    · rw [e3]; exact h3
  | list g l friendly _ ih =>
    obtain ⟨h1, h2, h3⟩ := ih
    obtain ⟨_, e1, _, e3, e2, _⟩ := list_ok g l friendly h3
    refine ⟨?_, ?_, ?_⟩
    · rw [e1]; exact h1
    · rw [e2]; exact h2
    · rw [e3]; exact h3

/-! ## The process store after one tick -/

theorem procStore_untouched (sc : ℚ → ℚ) (pd : List (Int × procStats)) (tp : List Int)
    (pcd : Int → Option (List ℚ)) (pid : Int) (h : pid ∉ pd.map Prod.fst) :
    procStoreUpdate sc pd tp pcd pid
      = if 0 < tp.count pid then some ((pcd pid).getD [] ++ List.replicate (tp.count pid) 0)
        else pcd pid := by
  unfold procStoreUpdate
  rw [pad_fold, procDelta_fold_updated, procDelta_fold_notin sc pd pid h]
  simp [h]

theorem procStore_reported (sc : ℚ → ℚ) (pd : List (Int × procStats)) (tp : List Int)
    (pcd : Int → Option (List ℚ)) (pid : Int) (d : procStats)
    (hnd : (pd.map Prod.fst).Nodup) (hm : (pid, d) ∈ pd) :
    procStoreUpdate sc pd tp pcd pid
      = some ((pcd pid).getD [] ++ [sc (((d.utime + d.stime : Nat) : ℚ))]) := by
  have hk : pid ∈ pd.map Prod.fst := List.mem_map_of_mem Prod.fst hm
  unfold procStoreUpdate
  rw [pad_fold, procDelta_fold_updated, procDelta_fold_mem sc pd pid d hnd hm]
  simp [hk]

theorem procStore_extends (sc : ℚ → ℚ) (pd : List (Int × procStats)) (tp : List Int)
    (pcd : Int → Option (List ℚ)) (pid : Int) (buf : List ℚ) (h : pcd pid = some buf) :
    ∃ ext, procStoreUpdate sc pd tp pcd pid = some (buf ++ ext) := by
  obtain ⟨ext, hext⟩ := procDelta_fold_extends sc pd pid (pcd, fun _ => false) buf h
  unfold procStoreUpdate
  rw [pad_fold, hext]
  split_ifs
  · exact ⟨ext ++ List.replicate (tp.count pid) 0, by simp⟩
  · exact ⟨ext, rfl⟩

theorem procDelta_fold_some (sc : ℚ → ℚ) (l : List (Int × procStats)) (pid : Int)
    (h : pid ∈ l.map Prod.fst) (acc : (Int → Option (List ℚ)) × (Int → Bool)) :
    ∃ buf, (l.foldl (procDeltaStep sc) acc).1 pid = some buf := by
  induction l generalizing acc with
  | nil => simp at h
  | cons e rest ih =>
    rw [List.foldl_cons]
    by_cases hr : pid ∈ rest.map Prod.fst
    · exact ih hr _
    · have he : pid = e.1 := by
        simp only [List.map_cons, List.mem_cons] at h
        rcases h with h | h
        · exact h
        · exact absurd h hr
      rw [procDelta_fold_notin sc rest pid hr, he, procDeltaStep_fst_same]
      exact ⟨_, rfl⟩

theorem procStore_tracked_some (sc : ℚ → ℚ) (pd : List (Int × procStats)) (tp : List Int)
    (pcd : Int → Option (List ℚ)) (pid : Int) (h : pid ∈ tp) :
    ∃ buf, procStoreUpdate sc pd tp pcd pid = some buf := by
  by_cases hk : pid ∈ pd.map Prod.fst
  · obtain ⟨buf, hbuf⟩ := procDelta_fold_some sc pd pid hk (pcd, fun _ => false)
    unfold procStoreUpdate
    rw [pad_fold, hbuf]
    split_ifs
    · exact ⟨_, rfl⟩
    · exact ⟨_, rfl⟩
  · rw [procStore_untouched sc pd tp pcd pid hk, if_pos (List.count_pos_iff.2 h)]
    exact ⟨_, rfl⟩

theorem procStore_tracked_len (sc : ℚ → ℚ) (pd : List (Int × procStats)) (tp : List Int)
    (pcd : Int → Option (List ℚ)) (pid : Int) (hnd : (pd.map Prod.fst).Nodup)
    (hc : tp.count pid = 1) :
    ((procStoreUpdate sc pd tp pcd pid).getD []).length = ((pcd pid).getD []).length + 1 := by
  by_cases hk : pid ∈ pd.map Prod.fst
  · obtain ⟨e, he, hfst⟩ := List.mem_map.1 hk
    obtain ⟨k, d⟩ := e
    simp only at hfst
    subst hfst
    rw [procStore_reported sc pd tp pcd k d hnd he]
    simp
  · rw [procStore_untouched sc pd tp pcd pid hk, hc]
    simp

theorem tick_wellFormed (g : Globals) (inp : TickInput) (h : WellFormed g) :
    WellFormed (tuiGraphUpdate g inp).state := by
  obtain ⟨h1, h2, h3⟩ := h
  obtain ⟨e1, e2, e3, _⟩ := tick_frame g inp
  refine ⟨?_, ?_, ?_⟩
  · rw [e1]; simp [h1]
  · rw [e2]; exact h2
  · rw [e3]; exact h3

theorem lastN_length {α : Type} (n : Nat) (xs : List α) :
    (lastN n xs).length = min n xs.length := by
  unfold lastN
  simp only [List.length_drop]
  omega

theorem lastN_suffix {α : Type} (n : Nat) (xs : List α) : lastN n xs <:+ xs :=
  List.drop_suffix _ _

theorem lastN_all {α : Type} (n : Nat) (xs : List α) (h : xs.length ≤ n) : lastN n xs = xs := by
  unfold lastN
  rw [Nat.sub_eq_zero_of_le h, List.drop_zero]

/-! ## The label table -/

theorem toString_digit_data (d : Nat) (h : d < 10) :
    (toString d).data = [Nat.digitChar d] := by
  interval_cases d <;> rfl

theorem digitChar_eq_zero (d : Nat) (h : d < 10) : Nat.digitChar d = '0' ↔ d = 0 := by
  interval_cases d <;> decide

theorem oneDecimal_hasSuffix (a : String) (d : Nat) (h : d < 10) :
    HasSuffix (a ++ "." ++ toString d) ".0" = decide (d = 0) := by
  unfold HasSuffix
  have hd : (a ++ "." ++ toString d).data = a.data ++ ['.', Nat.digitChar d] := by
    simp [String.data_append, toString_digit_data d h]
  have h0 : (".0" : String).data = ['.', '0'] := rfl
  rw [hd, h0]
  have hl : (a.data ++ ['.', Nat.digitChar d]).length - ['.', '0'].length = a.data.length := by
    simp
  rw [hl, List.drop_left]
  simp [digitChar_eq_zero d h]

theorem oneDecimal_dropLast (a : String) (d : Nat) (h : d < 10) :
    dropLast (a ++ "." ++ toString d) 2 = a := by
  unfold dropLast
  have hd : (a ++ "." ++ toString d).data = a.data ++ ['.', Nat.digitChar d] := by
    simp [String.data_append, toString_digit_data d h]
  rw [hd]
  have hl : (a.data ++ ['.', Nat.digitChar d]).length - 2 = a.data.length := by simp
  rw [hl, List.take_left]

theorem labelAt_eq (tieUp : Nat → Bool) (interval : Int) (i : Nat) :
    labelAt tieUp interval i =
      if roundTenths tieUp (wrapInt (((i : Int) - 1023) * interval)).natAbs % 10 = 0
      then toString (roundTenths tieUp (wrapInt (((i : Int) - 1023) * interval)).natAbs / 10)
      else toString (roundTenths tieUp (wrapInt (((i : Int) - 1023) * interval)).natAbs / 10)
        ++ "." ++
        toString (roundTenths tieUp (wrapInt (((i : Int) - 1023) * interval)).natAbs % 10) := by
  have hlt : roundTenths tieUp (wrapInt (((i : Int) - 1023) * interval)).natAbs % 10 < 10 :=
    Nat.mod_lt _ (by decide)
  unfold labelAt Sprintf1f
  simp only [oneDecimal_hasSuffix _ _ hlt, oneDecimal_dropLast _ _ hlt, decide_eq_true_eq]

theorem roundTenths_near (tieUp : Nat → Bool) (n : Nat) :
    |((roundTenths tieUp n : Nat) : ℚ) / 10 - (n : ℚ) / 1000| ≤ 1 / 20 := by
  have hn : n = 100 * (n / 100) + n % 100 := (Nat.div_add_mod n 100).symm
  have hr : n % 100 < 100 := Nat.mod_lt _ (by decide)
  have key : (100 * roundTenths tieUp n : Int) - n ≤ 50 ∧ (n : Int) - 100 * roundTenths tieUp n ≤ 50 := by
    unfold roundTenths
    split_ifs with hc
    · rcases hc with hc | hc
      · push_cast; omega
      · push_cast; omega
    · simp only [not_or, not_lt] at hc
      by_cases h50 : n % 100 = 50
      · push_cast; omega
      · push_cast; omega
  have k1 : ((100 * roundTenths tieUp n : Int) : ℚ) - (n : ℚ) ≤ 50 := by exact_mod_cast key.1
  have k2 : (n : ℚ) - ((100 * roundTenths tieUp n : Int) : ℚ) ≤ 50 := by exact_mod_cast key.2
  push_cast at k1 k2
  rw [abs_le]
  constructor <;> linarith

theorem wrapInt_id (z : Int) (h1 : -(2 ^ 63) ≤ z) (h2 : z < 2 ^ 63) : wrapInt z = z := by
  unfold wrapInt
  omega

/-! ## Sequences of ticks -/

theorem tick_proc_of_range (g : Globals) (inp : TickInput) (hw : WellFormed g)
    (h0 : 0 ≤ dataPoints inp.innerWidth) (h1 : dataPoints inp.innerWidth ≤ 1024) :
    (tuiGraphUpdate g inp).state.procChartData =
      procStoreUpdate (scale inp.jiffy inp.interval) inp.procDelta inp.topPids g.procChartData :=
  (tick_frame g inp).2.2.2.2.2.2 ((tick_fatal_iff g inp hw.2.1).2 ⟨h0, h1⟩)

theorem tick_procLen_tracked (g : Globals) (inp : TickInput) (hw : WellFormed g)
    (h0 : 0 ≤ dataPoints inp.innerWidth) (h1 : dataPoints inp.innerWidth ≤ 1024)
    (hnd : (inp.procDelta.map Prod.fst).Nodup) (pid : Int)
    (hc : inp.topPids.count pid = 1) :
    procLen (tuiGraphUpdate g inp).state pid = procLen g pid + 1 := by
  unfold procLen
  rw [tick_proc_of_range g inp hw h0 h1]
  exact procStore_tracked_len _ _ _ _ pid hnd hc

theorem runTicks_nil (g : Globals) : runTicks g [] = g := rfl

theorem runTicks_cons (g : Globals) (inp : TickInput) (rest : List TickInput) :
    runTicks g (inp :: rest) = runTicks (tuiGraphUpdate g inp).state rest := rfl

theorem tick_neg (g : Globals) (inp : TickInput) (h : dataPoints inp.innerWidth < 0) :
    (tuiGraphUpdate g inp).fatal = true ∧
      (tuiGraphUpdate g inp).state.procChartData = g.procChartData := by
  unfold tuiGraphUpdate sysEntries
  cases inp.usrFirst <;> simp [sysChartRange_neg _ h]

theorem runTicks_neg (inps : List TickInput) :
    ∀ (g : Globals), (∀ inp ∈ inps, dataPoints inp.innerWidth < 0) →
      (runTicks g inps).procChartData = g.procChartData := by
  induction inps with
  | nil => intro g _; rfl
  | cons inp rest ih =>
    intro g h
    rw [runTicks_cons, ih _ (fun i hi => h i (List.mem_cons_of_mem _ hi))]
    exact (tick_neg g inp (h inp (List.mem_cons_self _ _))).2

theorem runTicks_tracked (inps : List TickInput) :
    ∀ (g : Globals), WellFormed g →
      (∀ inp ∈ inps, 0 ≤ dataPoints inp.innerWidth ∧ dataPoints inp.innerWidth ≤ 1024 ∧
        (inp.procDelta.map Prod.fst).Nodup) →
      ∀ pid, (∀ inp ∈ inps, inp.topPids.count pid = 1) →
        procLen (runTicks g inps) pid = procLen g pid + inps.length := by
  induction inps with
  | nil => intro g _ _ pid _; rfl
  | cons inp rest ih =>
    intro g hw hok pid htr
    obtain ⟨h0, h1, hnd⟩ := hok inp (List.mem_cons_self _ _)
    have hstep := tick_procLen_tracked g inp hw h0 h1 hnd pid (htr inp (List.mem_cons_self _ _))
    have := ih (tuiGraphUpdate g inp).state (tick_wellFormed g inp hw)
      (fun i hi => hok i (List.mem_cons_of_mem _ hi)) pid
      (fun i hi => htr i (List.mem_cons_of_mem _ hi))
    show procLen (runTicks (tuiGraphUpdate g inp).state rest) pid = _
    rw [this, hstep, List.length_cons]
    omega

theorem label_value (interval : Int) (i : Nat) (h0 : 0 ≤ interval)
    (hb : 1023 * interval < 2 ^ 52) (hi : i < 1024) :
    (((wrapInt (((i : Int) - 1023) * interval)).natAbs : Nat) : ℚ)
      = |(i : ℚ) - 1023| * (interval : ℚ) := by
  have hle : (1023 - (i : Int)) * interval ≤ 1023 * interval :=
    mul_le_mul_of_nonneg_right (by omega) h0
  have hnn : 0 ≤ (1023 - (i : Int)) * interval := mul_nonneg (by omega) h0
  have hz : ((i : Int) - 1023) * interval = -((1023 - (i : Int)) * interval) := by ring
  have hw : wrapInt (((i : Int) - 1023) * interval) = ((i : Int) - 1023) * interval := by
    apply wrapInt_id
    · rw [hz]; omega
    · rw [hz]; omega
  rw [hw, Nat.cast_natAbs, Int.cast_abs]
  push_cast
  rw [abs_mul, abs_of_nonneg (show (0 : ℚ) ≤ (interval : ℚ) by exact_mod_cast h0)]

/-! ## The claims -/

/-- C1: for a viewport `0 ≤ v ≤ 1024` and a state reached from `tuiInit`, each
series pushed to a chart by `tuiGraphUpdate` (`usr`, `sys`, and the buffer of every
nonzero pid of `topPids`) is the last `min v L` elements, in order, of that series'
buffer after this tick's append, `L` being the buffer's length; so the slice has
`v` elements when `v ≤ L` and is the whole buffer when `v > L`. -/
theorem window_slicing (g : Globals) (hr : Reachable g) (inp : TickInput)
    (h0 : 0 ≤ dataPoints inp.innerWidth) (h1 : dataPoints inp.innerWidth ≤ 1024) :
    (tuiGraphUpdate g inp).state.sysChartData.usr =
        g.sysChartData.usr ++ [scale inp.jiffy inp.interval (inp.sysDelta.usr : ℚ)] ∧
      (tuiGraphUpdate g inp).state.sysChartData.sys =
        g.sysChartData.sys ++ [scale inp.jiffy inp.interval (inp.sysDelta.sys : ℚ)] ∧
      (tuiGraphUpdate g inp).state.sysChart.Data "usr" =
        some (lastN (min (dataPoints inp.innerWidth).toNat
            (tuiGraphUpdate g inp).state.sysChartData.usr.length)
          (tuiGraphUpdate g inp).state.sysChartData.usr) ∧
      (tuiGraphUpdate g inp).state.sysChart.Data "sys" =
        some (lastN (min (dataPoints inp.innerWidth).toNat
            (tuiGraphUpdate g inp).state.sysChartData.sys.length)
          (tuiGraphUpdate g inp).state.sysChartData.sys) ∧
      (∀ pid ∈ inp.topPids, pid ≠ 0 →
        ∃ buf, (tuiGraphUpdate g inp).state.procChartData pid = some buf ∧
          (tuiGraphUpdate g inp).state.procChart.Data (Sprint pid) =
            some (lastN (min (dataPoints inp.innerWidth).toNat buf.length) buf)) ∧
      (∀ buf : List ℚ,
        lastN (min (dataPoints inp.innerWidth).toNat buf.length) buf <:+ buf ∧
        (lastN (min (dataPoints inp.innerWidth).toNat buf.length) buf).length =
          min (dataPoints inp.innerWidth).toNat buf.length ∧
        ((dataPoints inp.innerWidth).toNat ≤ buf.length →
          (lastN (min (dataPoints inp.innerWidth).toNat buf.length) buf).length =
            (dataPoints inp.innerWidth).toNat) ∧
        (buf.length < (dataPoints inp.innerWidth).toNat →
          lastN (min (dataPoints inp.innerWidth).toNat buf.length) buf = buf)) := by
  obtain ⟨hf, hu, hs, _, _, hp, _⟩ := tick_ok g inp (reachable_wellFormed g hr) h0 h1
  obtain ⟨e1, _, _, _, _, _, e7⟩ := tick_frame g inp
  refine ⟨by rw [e1], by rw [e1], hu, hs, ?_, ?_⟩
  · intro pid hm hne
    obtain ⟨buf, hbuf⟩ := procStore_tracked_some (scale inp.jiffy inp.interval) inp.procDelta
      inp.topPids g.procChartData pid hm
    have hb : (tuiGraphUpdate g inp).state.procChartData pid = some buf := by
      rw [e7 hf, hbuf]
    refine ⟨buf, hb, ?_⟩
    have := hp pid hm hne
    rw [hb] at this
    exact this
  · intro buf
    refine ⟨lastN_suffix _ _, ?_, ?_, ?_⟩
    · rw [lastN_length]; omega
    · intro h; rw [lastN_length]; omega
    · intro h
      rw [lastN_all]
      omega

/-- Witness for C1: the first tick after `tuiInit` with inner width 8. -/
theorem window_slicing_witness :
    Reachable demoInit ∧ 0 ≤ dataPoints (demoTick 8 [] [5]).innerWidth ∧
      dataPoints (demoTick 8 [] [5]).innerWidth ≤ 1024 ∧
      (tuiGraphUpdate demoInit (demoTick 8 [] [5])).state.sysChart.Data "usr" =
        some (lastN (min (dataPoints (demoTick 8 [] [5]).innerWidth).toNat
            (tuiGraphUpdate demoInit (demoTick 8 [] [5])).state.sysChartData.usr.length)
          (tuiGraphUpdate demoInit (demoTick 8 [] [5])).state.sysChartData.usr) :=
  ⟨Reachable.init _ _ _, by decide, by decide,
    (window_slicing demoInit (Reachable.init _ _ _) (demoTick 8 [] [5])
      (by decide) (by decide)).2.2.1⟩

/-- Counterexample to C2 as stated: on the first tick with inner width 12 the data
slice of `usr` has one element while the label slice has ten. -/
theorem label_slice_counterexample :
    (tuiGraphUpdate demoInit (demoTick 12 [] [])).fatal = false ∧
      (dataPoints (demoTick 12 [] []).innerWidth).toNat = 10 ∧
      ((tuiGraphUpdate demoInit (demoTick 12 [] [])).state.sysChart.Data "usr").map List.length
        = some 1 ∧
      (tuiGraphUpdate demoInit (demoTick 12 [] [])).state.sysChart.DataLabels.length = 10 ∧
      (tuiGraphUpdate demoInit (demoTick 12 [] [])).state.sysChart.DataLabels ≠
        lastN (min 10 (tuiGraphUpdate demoInit (demoTick 12 [] [])).state.sysChartData.usr.length)
          (tuiGraphUpdate demoInit (demoTick 12 [] [])).state.dataLabels := by
  have hw : WellFormed demoInit := tuiInit_wellFormed _ _ _
  obtain ⟨hf, hu, _, hl, _, _, _⟩ := tick_ok demoInit (demoTick 12 [] []) hw (by decide) (by decide)
  obtain ⟨e1, e2, _⟩ := tick_frame demoInit (demoTick 12 [] [])
  have hv : (dataPoints (demoTick 12 [] []).innerWidth).toNat = 10 := by decide
  have hlen : (tuiGraphUpdate demoInit (demoTick 12 [] [])).state.sysChartData.usr.length = 1 := by
    rw [e1]; rfl
  have hlab : (tuiGraphUpdate demoInit (demoTick 12 [] [])).state.sysChart.DataLabels.length
      = 10 := by
    rw [hl, lastN_length, hv, hw.2.1]; rfl
  refine ⟨hf, hv, ?_, hlab, ?_⟩
  · rw [hu, hv, hlen, Option.map_some', lastN_length, hlen]; rfl
  · intro h
    have := congrArg List.length h
    rw [hlab, lastN_length, hlen, e2, hw.2.1] at this
    exact absurd this (by decide)

/-- C2 (amended): for a viewport `0 ≤ v ≤ 1024` and a state reached from
`tuiInit`, the label slice handed to each chart is the last `v` elements of the
1024-entry label table, so it has exactly `v` entries whatever the length `L` of a
charted buffer; a data slice has `min v L` elements, so the two lengths agree
exactly when `v ≤ L`. -/
theorem label_slice_amended (g : Globals) (hr : Reachable g) (inp : TickInput)
    (h0 : 0 ≤ dataPoints inp.innerWidth) (h1 : dataPoints inp.innerWidth ≤ 1024) :
    g.dataLabels.length = 1024 ∧
      (tuiGraphUpdate g inp).state.sysChart.DataLabels =
        lastN (dataPoints inp.innerWidth).toNat g.dataLabels ∧
      (tuiGraphUpdate g inp).state.procChart.DataLabels =
        lastN (dataPoints inp.innerWidth).toNat g.dataLabels ∧
      (tuiGraphUpdate g inp).state.sysChart.DataLabels.length =
        (dataPoints inp.innerWidth).toNat ∧
      (tuiGraphUpdate g inp).state.procChart.DataLabels.length =
        (dataPoints inp.innerWidth).toNat ∧
      ((tuiGraphUpdate g inp).state.sysChart.Data "usr").map List.length =
        some (min (dataPoints inp.innerWidth).toNat
          (tuiGraphUpdate g inp).state.sysChartData.usr.length) ∧
      (∀ pid ∈ inp.topPids, pid ≠ 0 →
        ((tuiGraphUpdate g inp).state.procChart.Data (Sprint pid)).map List.length =
          some (min (dataPoints inp.innerWidth).toNat
            (procLen (tuiGraphUpdate g inp).state pid))) ∧
      (∀ L : Nat, (dataPoints inp.innerWidth).toNat = min (dataPoints inp.innerWidth).toNat L ↔
        (dataPoints inp.innerWidth).toNat ≤ L) := by
  have hw := reachable_wellFormed g hr
  obtain ⟨_, hu, _, hl, hl2, hp, _⟩ := tick_ok g inp hw h0 h1
  have hlen : (lastN (dataPoints inp.innerWidth).toNat g.dataLabels).length
      = (dataPoints inp.innerWidth).toNat := by
    rw [lastN_length, hw.2.1]; omega
  refine ⟨hw.2.1, hl, hl2, by rw [hl, hlen], by rw [hl2, hlen], ?_, ?_, ?_⟩
  · rw [hu, Option.map_some', lastN_length]
    congr 1
    omega
  · intro pid hm hne
    rw [hp pid hm hne, Option.map_some', lastN_length]
    unfold procLen
    congr 1
    omega
  · intro L
    omega

/-- Witness for C2 (amended): the first tick with inner width 12. -/
theorem label_slice_amended_witness :
    Reachable demoInit ∧ 0 ≤ dataPoints (demoTick 12 [] []).innerWidth ∧
      dataPoints (demoTick 12 [] []).innerWidth ≤ 1024 ∧
      (tuiGraphUpdate demoInit (demoTick 12 [] [])).state.sysChart.DataLabels.length =
        (dataPoints (demoTick 12 [] []).innerWidth).toNat :=
  ⟨Reachable.init _ _ _, by decide, by decide,
    (label_slice_amended demoInit (Reachable.init _ _ _) (demoTick 12 [] [])
      (by decide) (by decide)).2.2.2.1⟩

/-- Counterexample to C3 as stated: pid 0 occurs twice in `topPids` and has no
delta; its missing buffer becomes `[0, 0]`, not `[0]`. -/
theorem padding_counterexample :
    (tuiGraphUpdate demoInit (demoTick 8 [] [0, 0])).fatal = false ∧
      demoInit.procChartData 0 = none ∧
      (tuiGraphUpdate demoInit (demoTick 8 [] [0, 0])).state.procChartData 0 = some [0, 0] ∧
      (tuiGraphUpdate demoInit (demoTick 8 [] [0, 0])).state.procChartData 0 ≠ some [0] := by
  have hw : WellFormed demoInit := tuiInit_wellFormed _ _ _
  have hf := (tick_fatal_iff demoInit (demoTick 8 [] [0, 0]) hw.2.1).2 ⟨by decide, by decide⟩
  have hp := tick_proc_of_range demoInit (demoTick 8 [] [0, 0]) hw (by decide) (by decide)
  have hv : (tuiGraphUpdate demoInit (demoTick 8 [] [0, 0])).state.procChartData 0
      = some [0, 0] := by
    rw [hp, procStore_untouched _ _ _ _ 0 (by simp [demoTick])]
    simp [demoTick, demoInit, tuiInit]
  refine ⟨hf, rfl, hv, ?_⟩
  rw [hv]
  simp

/-- C3 (amended): in a tick of `tuiGraphUpdate` that completes, every pid that
occurs exactly once in `topPids` and has no entry in `procDelta` has
`procChartData[pid]` equal to its previous contents followed by exactly one `0`
(a missing buffer becomes `[0]`); and for every pid that is neither in `topPids`
nor in `procDelta`, `procChartData[pid]` is unchanged (not created if absent). -/
theorem padding_amended (g : Globals) (inp : TickInput) (pid : Int)
    (hf : (tuiGraphUpdate g inp).fatal = false) (hk : pid ∉ inp.procDelta.map Prod.fst) :
    (inp.topPids.count pid = 1 →
        (tuiGraphUpdate g inp).state.procChartData pid =
          some ((g.procChartData pid).getD [] ++ [0])) ∧
      (pid ∉ inp.topPids →
        (tuiGraphUpdate g inp).state.procChartData pid = g.procChartData pid) := by
  have hp := (tick_frame g inp).2.2.2.2.2.2 hf
  have hu := procStore_untouched (scale inp.jiffy inp.interval) inp.procDelta inp.topPids
    g.procChartData pid hk
  rw [hp, hu]
  refine ⟨?_, ?_⟩
  · intro h1
    rw [h1]
    simp
  · intro hn
    rw [List.count_eq_zero_of_not_mem hn]
    simp

/-- Witness for C3 (amended): tracked `[1, 2, 3]`, deltas for pid 1 only; pid 2
gains exactly one `0`. -/
theorem padding_amended_witness :
    (tuiGraphUpdate demoInit (demoTick 8 [(1, ⟨4, 1⟩)] [1, 2, 3])).fatal = false ∧
      (2 : Int) ∉ (demoTick 8 [(1, ⟨4, 1⟩)] [1, 2, 3]).procDelta.map Prod.fst ∧
      (demoTick 8 [(1, ⟨4, 1⟩)] [1, 2, 3]).topPids.count 2 = 1 ∧
      (tuiGraphUpdate demoInit (demoTick 8 [(1, ⟨4, 1⟩)] [1, 2, 3])).state.procChartData 2 =
        some ((demoInit.procChartData 2).getD [] ++ [0]) :=
  ⟨(tick_fatal_iff demoInit _ (tuiInit_wellFormed _ _ _).2.1).2 ⟨by decide, by decide⟩,
    by decide, by decide,
    (padding_amended demoInit (demoTick 8 [(1, ⟨4, 1⟩)] [1, 2, 3]) 2
      ((tick_fatal_iff demoInit _ (tuiInit_wellFormed _ _ _).2.1).2 ⟨by decide, by decide⟩)
      (by decide)).1 (by decide)⟩

/-- Counterexample to C4 as stated: pid 2 joins `topPids` at the second tick; after
that tick the buffers of the tracked pids 1 and 2 have lengths 2 and 1. -/
theorem sync_counterexample :
    demoInit.procChartData 1 = none ∧ demoInit.procChartData 2 = none ∧
      (tuiGraphUpdate demoInit (demoTick 8 [(1, ⟨5, 0⟩)] [1])).fatal = false ∧
      (tuiGraphUpdate (tuiGraphUpdate demoInit (demoTick 8 [(1, ⟨5, 0⟩)] [1])).state
        (demoTick 8 [(1, ⟨3, 0⟩), (2, ⟨4, 0⟩)] [1, 2])).fatal = false ∧
      (1 : Int) ∈ (demoTick 8 [(1, ⟨3, 0⟩), (2, ⟨4, 0⟩)] [1, 2]).topPids ∧
      (2 : Int) ∈ (demoTick 8 [(1, ⟨3, 0⟩), (2, ⟨4, 0⟩)] [1, 2]).topPids ∧
      procLen (runTicks demoInit
        [demoTick 8 [(1, ⟨5, 0⟩)] [1], demoTick 8 [(1, ⟨3, 0⟩), (2, ⟨4, 0⟩)] [1, 2]]) 1 = 2 ∧
      procLen (runTicks demoInit
        [demoTick 8 [(1, ⟨5, 0⟩)] [1], demoTick 8 [(1, ⟨3, 0⟩), (2, ⟨4, 0⟩)] [1, 2]]) 2 = 1 := by
  have hw : WellFormed demoInit := tuiInit_wellFormed _ _ _
  have hw1 := tick_wellFormed demoInit (demoTick 8 [(1, ⟨5, 0⟩)] [1]) hw
  have hf1 := (tick_fatal_iff demoInit (demoTick 8 [(1, ⟨5, 0⟩)] [1]) hw.2.1).2
    ⟨by decide, by decide⟩
  have hf2 := (tick_fatal_iff _ (demoTick 8 [(1, ⟨3, 0⟩), (2, ⟨4, 0⟩)] [1, 2]) hw1.2.1).2
    ⟨by decide, by decide⟩
  have a1 := tick_procLen_tracked demoInit (demoTick 8 [(1, ⟨5, 0⟩)] [1]) hw (by decide)
    (by decide) (by decide) 1 (by decide)
  have a2 := tick_procLen_tracked _ (demoTick 8 [(1, ⟨3, 0⟩), (2, ⟨4, 0⟩)] [1, 2]) hw1
    (by decide) (by decide) (by decide) 1 (by decide)
  have b2 := tick_procLen_tracked _ (demoTick 8 [(1, ⟨3, 0⟩), (2, ⟨4, 0⟩)] [1, 2]) hw1
    (by decide) (by decide) (by decide) 2 (by decide)
  have b1 : procLen (tuiGraphUpdate demoInit (demoTick 8 [(1, ⟨5, 0⟩)] [1])).state 2 = 0 := by
    unfold procLen
    rw [tick_proc_of_range demoInit _ hw (by decide) (by decide),
      procStore_untouched _ _ _ _ 2 (by decide)]
    rfl
  have z1 : procLen demoInit 1 = 0 := rfl
  refine ⟨rfl, rfl, hf1, hf2, by decide, by decide, ?_, ?_⟩
  · rw [runTicks_cons, runTicks_cons, runTicks_nil, a2, a1, z1]
  · rw [runTicks_cons, runTicks_cons, runTicks_nil, b2, b1]

/-- C4 (amended): over any sequence of completed ticks (viewport within
`0..1024`, tracked lists and delta maps arbitrary otherwise), the buffer of a pid
that occurs exactly once in `topPids` at every tick grows by exactly one element
per tick; so, starting from the empty process store, all pids that occur exactly
once in `topPids` at every tick have buffers of one length, the number of ticks. -/
theorem sync_amended (g : Globals) (hr : Reachable g) (inps : List TickInput)
    (hok : ∀ inp ∈ inps, 0 ≤ dataPoints inp.innerWidth ∧ dataPoints inp.innerWidth ≤ 1024 ∧
      (inp.procDelta.map Prod.fst).Nodup)
    (p q : Int) (hp : ∀ inp ∈ inps, inp.topPids.count p = 1)
    (hq : ∀ inp ∈ inps, inp.topPids.count q = 1) :
    procLen (runTicks g inps) p = procLen g p + inps.length ∧
      procLen (runTicks g inps) q = procLen g q + inps.length ∧
      (g.procChartData = (fun _ => none) →
        procLen (runTicks g inps) p = inps.length ∧
        procLen (runTicks g inps) q = inps.length ∧
        procLen (runTicks g inps) p = procLen (runTicks g inps) q) := by
  have hw := reachable_wellFormed g hr
  have e1 := runTicks_tracked inps g hw hok p hp
  have e2 := runTicks_tracked inps g hw hok q hq
  refine ⟨e1, e2, ?_⟩
  intro hempty
  have z1 : procLen g p = 0 := by unfold procLen; rw [hempty]; rfl
  have z2 : procLen g q = 0 := by unfold procLen; rw [hempty]; rfl
  rw [e1, e2, z1, z2]
  simp

/-- Witness for C4 (amended): two ticks tracking pids 1 and 2 throughout, the
tracked list carrying two unfilled `0` slots. -/
theorem sync_amended_witness :
    Reachable demoInit ∧
      procLen (runTicks demoInit
        [demoTick 8 [(1, ⟨5, 0⟩)] [1, 2, 0, 0], demoTick 8 [(2, ⟨4, 0⟩)] [2, 1, 0, 0]]) 1 =
      procLen (runTicks demoInit
        [demoTick 8 [(1, ⟨5, 0⟩)] [1, 2, 0, 0], demoTick 8 [(2, ⟨4, 0⟩)] [2, 1, 0, 0]]) 2 :=
  ⟨Reachable.init _ _ _,
    ((sync_amended demoInit (Reachable.init _ _ _)
      [demoTick 8 [(1, ⟨5, 0⟩)] [1, 2, 0, 0], demoTick 8 [(2, ⟨4, 0⟩)] [2, 1, 0, 0]]
      (by decide) 1 2 (by decide) (by decide)).2.2 rfl).2.2⟩

/-- Counterexample to C5 as stated: with inner width 6 (viewport -2) each of the
three ticks panics at line 184 and returns through `recover` before the process
store is touched, so `procChartData[10]` stays absent. -/
theorem end_to_end_counterexample :
    demoInit.procChartData = (fun _ => none) ∧
      (runTicks demoInit
        [demoTick 6 [(10, ⟨5, 0⟩)] [10, 20], demoTick 6 [(10, ⟨3, 0⟩), (20, ⟨4, 0⟩)] [10, 20],
          demoTick 6 [(20, ⟨2, 0⟩)] [10, 20]]).procChartData 10 = none ∧
      (runTicks demoInit
        [demoTick 6 [(10, ⟨5, 0⟩)] [10, 20], demoTick 6 [(10, ⟨3, 0⟩), (20, ⟨4, 0⟩)] [10, 20],
          demoTick 6 [(20, ⟨2, 0⟩)] [10, 20]]).procChartData 10 ≠
        some [scale 100 1000 5, scale 100 1000 3, 0] := by
  have h := runTicks_neg
    [demoTick 6 [(10, ⟨5, 0⟩)] [10, 20], demoTick 6 [(10, ⟨3, 0⟩), (20, ⟨4, 0⟩)] [10, 20],
      demoTick 6 [(20, ⟨2, 0⟩)] [10, 20]] demoInit (by decide)
  have h0 : demoInit.procChartData = (fun _ => none) := rfl
  rw [h, h0]
  exact ⟨rfl, rfl, by simp⟩

/-- C5 (amended): starting from an empty process store, three completed ticks of
`tuiGraphUpdate` with `topPids = [10, 20]`, jiffy 100, interval 1000 and
per-process deltas (`utime + stime`) `{10: 5}`, then `{10: 3, 20: 4}` (in either
iteration order), then `{20: 2}` leave `procChartData[10] = [scale 5, scale 3, 0]`
and `procChartData[20] = [0, scale 4, scale 2]`. -/
theorem end_to_end (g : Globals) (i1 i2 i3 : TickInput) (a b c d : procStats)
    (hempty : g.procChartData = fun _ => none)
    (ht : i1.topPids = [10, 20] ∧ i2.topPids = [10, 20] ∧ i3.topPids = [10, 20])
    (hj : i1.jiffy = 100 ∧ i2.jiffy = 100 ∧ i3.jiffy = 100)
    (hi : i1.interval = 1000 ∧ i2.interval = 1000 ∧ i3.interval = 1000)
    (hd1 : i1.procDelta = [(10, a)])
    (hd2 : i2.procDelta = [(10, b), (20, c)] ∨ i2.procDelta = [(20, c), (10, b)])
    (hd3 : i3.procDelta = [(20, d)])
    (hs : a.utime + a.stime = 5 ∧ b.utime + b.stime = 3 ∧ c.utime + c.stime = 4 ∧
      d.utime + d.stime = 2)
    (hf1 : (tuiGraphUpdate g i1).fatal = false)
    (hf2 : (tuiGraphUpdate (tuiGraphUpdate g i1).state i2).fatal = false)
    (hf3 : (tuiGraphUpdate (tuiGraphUpdate (tuiGraphUpdate g i1).state i2).state i3).fatal
      = false) :
    (runTicks g [i1, i2, i3]).procChartData 10 =
        some [scale 100 1000 5, scale 100 1000 3, 0] ∧
      (runTicks g [i1, i2, i3]).procChartData 20 =
        some [0, scale 100 1000 4, scale 100 1000 2] := by
  obtain ⟨ht1, ht2, ht3⟩ := ht
  obtain ⟨hj1, hj2, hj3⟩ := hj
  obtain ⟨hi1, hi2, hi3⟩ := hi
  obtain ⟨ha, hb, hc, hd⟩ := hs
  have p1 := (tick_frame g i1).2.2.2.2.2.2 hf1
  have p2 := (tick_frame _ i2).2.2.2.2.2.2 hf2
  have p3 := (tick_frame _ i3).2.2.2.2.2.2 hf3
  rw [ht1, hj1, hi1, hd1, hempty] at p1
  rw [ht2, hj2, hi2] at p2
  rw [ht3, hj3, hi3, hd3] at p3
  have s10 : (tuiGraphUpdate g i1).state.procChartData 10 = some [scale 100 1000 5] := by
    rw [p1, procStore_reported _ _ _ _ 10 a (by simp) (by simp), ha]
    simp
  have s20 : (tuiGraphUpdate g i1).state.procChartData 20 = some [0] := by
    rw [p1, procStore_untouched _ _ _ _ 20 (by simp)]
    simp
  have t10 : (tuiGraphUpdate (tuiGraphUpdate g i1).state i2).state.procChartData 10
      = some [scale 100 1000 5, scale 100 1000 3] := by
    rcases hd2 with h | h
    · rw [p2, h, procStore_reported _ _ _ _ 10 b (by simp) (by simp), hb, s10]
      simp
    · rw [p2, h, procStore_reported _ _ _ _ 10 b (by simp) (by simp), hb, s10]
      simp
  have t20 : (tuiGraphUpdate (tuiGraphUpdate g i1).state i2).state.procChartData 20
      = some [0, scale 100 1000 4] := by
    rcases hd2 with h | h
    · rw [p2, h, procStore_reported _ _ _ _ 20 c (by simp) (by simp), hc, s20]
      simp
    · rw [p2, h, procStore_reported _ _ _ _ 20 c (by simp) (by simp), hc, s20]
      simp
  refine ⟨?_, ?_⟩
  · show (tuiGraphUpdate (tuiGraphUpdate (tuiGraphUpdate g i1).state i2).state i3).state.procChartData
      10 = _
    rw [p3, procStore_untouched _ _ _ _ 10 (by simp), t10]
    simp
  · show (tuiGraphUpdate (tuiGraphUpdate (tuiGraphUpdate g i1).state i2).state i3).state.procChartData
      20 = _
    rw [p3, procStore_reported _ _ _ _ 20 d (by simp) (by simp), hd, t20]
    simp

/-- Witness for C5 (amended): the three ticks after `tuiInit` with inner width 8. -/
theorem end_to_end_witness :
    (runTicks demoInit
        [demoTick 8 [(10, ⟨5, 0⟩)] [10, 20], demoTick 8 [(10, ⟨3, 0⟩), (20, ⟨4, 0⟩)] [10, 20],
          demoTick 8 [(20, ⟨2, 0⟩)] [10, 20]]).procChartData 10 =
        some [scale 100 1000 5, scale 100 1000 3, 0] ∧
      (runTicks demoInit
        [demoTick 8 [(10, ⟨5, 0⟩)] [10, 20], demoTick 8 [(10, ⟨3, 0⟩), (20, ⟨4, 0⟩)] [10, 20],
          demoTick 8 [(20, ⟨2, 0⟩)] [10, 20]]).procChartData 20 =
        some [0, scale 100 1000 4, scale 100 1000 2] :=
  end_to_end demoInit (demoTick 8 [(10, ⟨5, 0⟩)] [10, 20])
    (demoTick 8 [(10, ⟨3, 0⟩), (20, ⟨4, 0⟩)] [10, 20]) (demoTick 8 [(20, ⟨2, 0⟩)] [10, 20])
    ⟨5, 0⟩ ⟨3, 0⟩ ⟨4, 0⟩ ⟨2, 0⟩ rfl ⟨rfl, rfl, rfl⟩ ⟨rfl, rfl, rfl⟩ ⟨rfl, rfl, rfl⟩ rfl
    (Or.inl rfl) rfl ⟨rfl, rfl, rfl, rfl⟩
    ((tick_fatal_iff _ _ (tuiInit_wellFormed _ _ _).2.1).2 ⟨by decide, by decide⟩)
    ((tick_fatal_iff _ _ (tick_wellFormed _ _ (tuiInit_wellFormed _ _ _)).2.1).2
      ⟨by decide, by decide⟩)
    ((tick_fatal_iff _ _
      (tick_wellFormed _ _ (tick_wellFormed _ _ (tuiInit_wellFormed _ _ _))).2.1).2
      ⟨by decide, by decide⟩)

/-- C6: in a state reached from `tuiInit` the palette has 15 entries and, for every
pid list, `tuiListUpdate` completes with one row per rank; row `i` is tagged
`fg-color(i mod 15)`; for every rank `i` whose pid does not occur again at a
later rank, `graphColors[str(list[i])] = colorList[i mod 15]`, so ranks `r` and
`r + 15` get the same colour; and the lookup is rebuilt from an empty map: a key
that is not the string of a listed pid is absent after the call. -/
theorem colour_assignment (g : Globals) (hr : Reachable g) (list : List Int)
    (friendly : Int → String) :
    g.colorList.length = 15 ∧
      (tuiListUpdate g list friendly).fatal = false ∧
      (tuiListUpdate g list friendly).state.mainListItems.length = list.length ∧
      (∀ i pid, list[i]? = some pid →
        (tuiListUpdate g list friendly).state.mainListItems[i]? =
          some ("[" ++ toString i ++ " " ++ Sprint pid ++ " " ++ friendly pid ++ "](fg-color"
            ++ toString (i % 15) ++ ")")) ∧
      (∀ i pid, list[i]? = some pid → (∀ j, i < j → list[j]? ≠ some pid) →
        (tuiListUpdate g list friendly).state.graphColors (Sprint pid) = g.colorList[i % 15]? ∧
        g.colorList[i % 15]? ≠ none) ∧
      (∀ r p q, list[r]? = some p → list[r + 15]? = some q →
        (∀ j, r < j → list[j]? ≠ some p) → (∀ j, r + 15 < j → list[j]? ≠ some q) →
        (tuiListUpdate g list friendly).state.graphColors (Sprint p) =
          (tuiListUpdate g list friendly).state.graphColors (Sprint q)) ∧
      (∀ k, (∀ pid ∈ list, Sprint pid ≠ k) →
        (tuiListUpdate g list friendly).state.graphColors k = none) := by
  have hK := (reachable_wellFormed g hr).2.2
  obtain ⟨f1, _, _, _, _, f6, f7, f8, f9⟩ := list_ok g list friendly hK
  refine ⟨hK, f1, f6, ?_, ?_, ?_, f9⟩
  · intro i pid hi
    exact f7 i pid hi
  · intro i pid hi hl
    refine ⟨f8 i pid hi hl, ?_⟩
    have : i % 15 < g.colorList.length := by rw [hK]; exact Nat.mod_lt _ (by decide)
    rw [List.getElem?_eq_getElem this]
    simp
  · intro r p q hp hq hlp hlq
    rw [f8 r p hp hlp, f8 (r + 15) q hq hlq, Nat.add_mod_right]

/-- Witness for C6: a two-entry list after `tuiInit`. -/
theorem colour_assignment_witness :
    Reachable demoInit ∧
      (tuiListUpdate demoInit [7, 8] (fun _ => "sh")).state.mainListItems.length = 2 :=
  ⟨Reachable.init _ _ _,
    (colour_assignment demoInit (Reachable.init _ _ _) [7, 8] (fun _ => "sh")).2.2.1⟩

/-- Counterexample to C7 as stated: for interval -500 entry 0 is `"511.5"`, while
the claimed value `|0 - 1023| * (-500) / 1000` is `-511.5`, which no nonnegative
number of tenths is near. -/
theorem label_table_counterexample :
    (tuiInit (fun r g b => r * 65536 + g * 256 + b) (fun _ => false) (-500)).dataLabels[0]?
        = some "511.5" ∧
      |((0 : Nat) : ℚ) - 1023| * (((-500 : Int)) : ℚ) / 1000 = -(5115 / 10) ∧
      ¬ ∃ t : Nat,
        |(t : ℚ) / 10 - |((0 : Nat) : ℚ) - 1023| * (((-500 : Int)) : ℚ) / 1000| ≤ 1 / 20 := by
  have hl : (tuiInit (fun r g b => r * 65536 + g * 256 + b) (fun _ => false)
      (-500)).dataLabels = buildLabels (fun _ => false) (-500) := by
    simp only [tuiInit]
  have hv : |((0 : Nat) : ℚ) - 1023| * (((-500 : Int)) : ℚ) / 1000 = -(5115 / 10) := by
    norm_num
  refine ⟨?_, hv, ?_⟩
  · rw [hl, buildLabels_getElem?, if_pos (by decide), labelAt_eq]
    have hn : (wrapInt ((((0 : Nat) : Int) - 1023) * (-500))).natAbs = 511500 := by decide
    rw [hn]
    have ht : roundTenths (fun _ => false) 511500 = 5115 := by simp [roundTenths]
    rw [ht]
    decide
  · rintro ⟨t, ht⟩
    rw [hv, abs_le] at ht
    have h0 : (0 : ℚ) ≤ (t : ℚ) := Nat.cast_nonneg t
    linarith [ht.2]

/-- C7 (amended): the label table built by `tuiInit` has exactly 1024 entries and,
for every index `i < 1024` and every interval with `0 ≤ interval` and
`1023 * interval < 2 ^ 52`, entry `i` is the value `|i - 1023| * interval / 1000`
written with exactly one decimal digit, namely a nearest number of tenths `t`
(either neighbour at an exact decimal tie), with a trailing `.0` removed; for
interval 500, entry 1023 is `"0"` and entry 0 is `"511.5"`. -/
theorem label_table (ColorRGB24 : Nat → Nat → Nat → Attribute) (tieUp : Nat → Bool)
    (interval : Int) (h0 : 0 ≤ interval) (hb : 1023 * interval < 2 ^ 52) :
    (tuiInit ColorRGB24 tieUp interval).dataLabels.length = 1024 ∧
      (∀ i : Nat, i < 1024 → ∃ t : Nat,
        |(t : ℚ) / 10 - |(i : ℚ) - 1023| * (interval : ℚ) / 1000| ≤ 1 / 20 ∧
        (tuiInit ColorRGB24 tieUp interval).dataLabels[i]? =
          some (if t % 10 = 0 then toString (t / 10)
            else toString (t / 10) ++ "." ++ toString (t % 10))) ∧
      (interval = 500 →
        (tuiInit ColorRGB24 tieUp interval).dataLabels[1023]? = some "0" ∧
        (tuiInit ColorRGB24 tieUp interval).dataLabels[0]? = some "511.5") := by
  have hl : (tuiInit ColorRGB24 tieUp interval).dataLabels = buildLabels tieUp interval := by
    simp only [tuiInit]
  rw [hl]
  refine ⟨buildLabels_length tieUp interval, ?_, ?_⟩
  · intro i hi
    refine ⟨roundTenths tieUp (wrapInt (((i : Int) - 1023) * interval)).natAbs, ?_, ?_⟩
    · have := roundTenths_near tieUp (wrapInt (((i : Int) - 1023) * interval)).natAbs
      rw [label_value interval i h0 hb hi] at this
      exact this
    · rw [buildLabels_getElem?, if_pos hi, labelAt_eq]
  · intro h500
    subst h500
    constructor
    · rw [buildLabels_getElem?, if_pos (by decide), labelAt_eq]
      have hn : (wrapInt ((((1023 : Nat) : Int) - 1023) * 500)).natAbs = 0 := by decide
      rw [hn]
      have ht : roundTenths tieUp 0 = 0 := by simp [roundTenths]
      rw [ht]
      decide
    · rw [buildLabels_getElem?, if_pos (by decide), labelAt_eq]
      have hn : (wrapInt ((((0 : Nat) : Int) - 1023) * 500)).natAbs = 511500 := by decide
      rw [hn]
      have ht : roundTenths tieUp 511500 = 5115 := by simp [roundTenths]
      rw [ht]
      decide

/-- Witness for C7 (amended) at interval 500 (and the table length at interval 1000). -/
theorem label_table_witness :
    (0 : Int) ≤ 500 ∧ (1023 : Int) * 500 < 2 ^ 52 ∧
      demoInit.dataLabels.length = 1024 ∧
      (tuiInit (fun r g b => r * 65536 + g * 256 + b) (fun _ => true) 500).dataLabels[0]?
        = some "511.5" :=
  ⟨by decide, by decide,
    (label_table (fun r g b => r * 65536 + g * 256 + b) (fun _ => false) 1000
      (by decide) (by decide)).1,
    ((label_table (fun r g b => r * 65536 + g * 256 + b) (fun _ => true) 500
      (by decide) (by decide)).2.2 rfl).2⟩

/-- C8: over exact rational arithmetic, for nonzero `jiffy` and `interval` the
closure `scale` returns `(x / jiffy) / (interval / 1000) * 100` with no clamping;
it is linear (`scale (2x) = 2 * scale x`), and `scale 20 = 100` for jiffy 100 and
interval 200. -/
theorem scale_contract (jiffy interval : Int) (x : ℚ) (hj : jiffy ≠ 0) (hi : interval ≠ 0) :
    scale jiffy interval x = (x / (jiffy : ℚ)) / ((interval : ℚ) / 1000) * 100 ∧
      scale jiffy interval (2 * x) = 2 * scale jiffy interval x ∧
      scale 100 200 20 = 100 := by
  have hj2 : (jiffy : ℚ) ≠ 0 := by exact_mod_cast hj
  have hi2 : (interval : ℚ) ≠ 0 := by exact_mod_cast hi
  refine ⟨?_, ?_, ?_⟩
  · unfold scale
    field_simp
  · unfold scale
    ring
  · unfold scale
    norm_num

/-- Witness for C8 at jiffy 100, interval 200, raw delta 40. -/
theorem scale_contract_witness :
    (100 : Int) ≠ 0 ∧ (200 : Int) ≠ 0 ∧
      scale 100 200 40 = (40 / ((100 : Int) : ℚ)) / (((200 : Int) : ℚ) / 1000) * 100 :=
  ⟨by decide, by decide, (scale_contract 100 200 40 (by decide) (by decide)).1⟩

/-- C9: one tick of `tuiGraphUpdate` appends exactly one element to each of the
two system buffers, and every process buffer that existed before the tick still
exists afterwards with its previous contents as a prefix of the new contents. -/
theorem store_append_only (g : Globals) (inp : TickInput) :
    (tuiGraphUpdate g inp).state.sysChartData.usr =
        g.sysChartData.usr ++ [scale inp.jiffy inp.interval (inp.sysDelta.usr : ℚ)] ∧
      (tuiGraphUpdate g inp).state.sysChartData.sys =
        g.sysChartData.sys ++ [scale inp.jiffy inp.interval (inp.sysDelta.sys : ℚ)] ∧
      ∀ pid buf, g.procChartData pid = some buf →
        ∃ buf2, (tuiGraphUpdate g inp).state.procChartData pid = some buf2 ∧ buf <+: buf2 := by
  obtain ⟨e1, _, _, _, _, e6, _⟩ := tick_frame g inp
  refine ⟨by rw [e1], by rw [e1], ?_⟩
  intro pid buf hb
  rcases e6 with e | e
  · exact ⟨buf, by rw [e, hb], List.prefix_refl buf⟩
  · obtain ⟨ext, hext⟩ := procStore_extends (scale inp.jiffy inp.interval) inp.procDelta
      inp.topPids g.procChartData pid buf hb
    exact ⟨buf ++ ext, by rw [e, hext], List.prefix_append buf ext⟩

/-- C10: in every state reached from `tuiInit`, a tick of `tuiGraphUpdate` runs
without an out-of-range slice exactly when the viewport
`dataPoints = 2 * innerWidth - 14` satisfies `0 ≤ dataPoints ≤ 1024`; otherwise
(for instance with an inner width below 7) it takes the recover/`tuiFatal` path. -/
theorem slice_bounds_iff (g : Globals) (hr : Reachable g) (inp : TickInput) :
    dataPoints inp.innerWidth = 2 * inp.innerWidth - 14 ∧
      ((tuiGraphUpdate g inp).fatal = false ↔
        0 ≤ dataPoints inp.innerWidth ∧ dataPoints inp.innerWidth ≤ 1024) ∧
      (inp.innerWidth < 7 → (tuiGraphUpdate g inp).fatal = true) := by
  have hiff := tick_fatal_iff g inp (reachable_wellFormed g hr).2.1
  refine ⟨by unfold dataPoints; ring, hiff, ?_⟩
  intro hw
  cases hf : (tuiGraphUpdate g inp).fatal
  · have := (hiff.1 hf).1
    unfold dataPoints at this
    omega
  · rfl

/-- Witness for C10: inner width 6 gives the viewport -2 and the tick is fatal. -/
theorem slice_bounds_iff_witness :
    Reachable demoInit ∧ (tuiGraphUpdate demoInit (demoTick 6 [] [])).fatal = true :=
  ⟨Reachable.init _ _ _,
    (slice_bounds_iff demoInit (Reachable.init _ _ _) (demoTick 6 [] [])).2.2 (by decide)⟩

end Cpustat
